import Mathlib

set_option linter.unnecessarySeqFocus false
set_option linter.unreachableTactic false
set_option linter.unusedTactic false

/-!
Verification of the PDF2UBL template-driven extraction engine and UBL
document assembler against its specification.

The development is a shallow embedding of the Python sources:

* `src/pdf2ubl/templates/template_engine.py` — numeric parsing, pattern
  confidence, keyword pattern application, field resolution, supplier
  matching and post-processing of extracted data;
* `src/pdf2ubl/templates/template_manager.py` — template selection;
* `src/pdf2ubl/exporters/ubl_models.py` and `ubl_exporter.py` — the UBL
  invoice model, totals computation and total validation/adjustment.

Modelling conventions:

* Python `float` and `decimal.Decimal` amounts are embedded as `ℚ`.
  `Decimal` addition and multiplication are exact at the magnitudes the
  exporter handles (the default context only rounds beyond 28 significant
  digits); `Decimal` division rounds to 28 significant digits with
  round-half-even, modelled exactly by `decDiv28` below.  Binary `float`
  round-off never separates any two quantities these theorems compare, so
  decimal-literal strings are denoted exactly.
* Python strings are embedded as `String`/`List Char`; the string
  operations used by the engine (strip, lower, find, split, replace) are
  defined character by character to match CPython on ASCII text.
* Calls into Python's `re` library with template-supplied expressions are
  modelled by an oracle record `PyRe`; theorems quantify over the oracle.
  The fixed, concrete regular expressions hard-coded in the engine
  (well-formedness checks, keyword value shapes) are implemented directly.
* `None` becomes `Option`, and Python truthiness (`None`, `0`, `""` and
  `[]` are falsy) is modelled by explicit `truthy…` helpers.
-/

namespace PDF2UBL

/-! ## Python-style character and string helpers -/

/-- Whitespace characters stripped by Python `str.strip()` and matched by
the regex class `\s` (ASCII range). -/
def pyIsSpace (c : Char) : Bool :=
  c = ' ' ∨ c = '\t' ∨ c = '\n' ∨ c = '\r' ∨ c = '\x0b' ∨ c = '\x0c'

/-- Left strip, as Python `str.lstrip()`. -/
def lstrip (l : List Char) : List Char := l.dropWhile pyIsSpace

/-- Right strip, as Python `str.rstrip()`. -/
def rstrip (l : List Char) : List Char := (l.reverse.dropWhile pyIsSpace).reverse

/-- Python `str.strip()`. -/
def pyStrip (l : List Char) : List Char := rstrip (lstrip l)

/-- ASCII lower-casing, as Python `str.lower()` on the ASCII texts the
engine handles. -/
def lowerL (l : List Char) : List Char := l.map Char.toLower

/-- Python `str.split(sep)` for a one-character separator. -/
def splitChar (sep : Char) : List Char → List (List Char)
  | [] => [[]]
  | x :: xs =>
    match splitChar sep xs with
    | [] => [[]]
    | y :: ys => if x = sep then [] :: y :: ys else (x :: y) :: ys

/-- First index at which `needle` occurs in the remaining text, starting
the count at `i`. -/
def findSubAux (needle : List Char) : List Char → ℕ → Option ℕ
  | [], i => if needle = [] then some i else none
  | c :: t, i =>
    if needle.isPrefixOf (c :: t) then some i else findSubAux needle t (i + 1)

/-- Python `str.find`: index of the first occurrence of `needle` in
`hay`, `none` when absent (Python returns `-1`). -/
def findSub (hay needle : List Char) : Option ℕ := findSubAux needle hay 0

/-- Python's `in` operator on strings: substring containment. -/
def containsSub (hay needle : List Char) : Bool := (findSub hay needle).isSome

/-- Index of the last occurrence of `c`, as Python `str.rfind`. -/
def lastIdxAux (c : Char) : List Char → ℕ → Option ℕ → Option ℕ
  | [], _, best => best
  | x :: t, i, best => lastIdxAux c t (i + 1) (if x = c then some i else best)

/-- Python `str.rfind(c)` (as an `Option` instead of `-1`). -/
def lastIdx (c : Char) (l : List Char) : Option ℕ := lastIdxAux c l 0 none

/-- Remove every occurrence of a character, as Python `str.replace(c, "")`. -/
def removeAll (c : Char) (l : List Char) : List Char := l.filter (· ≠ c)

/-- Python `str.replace(a, b)` for one-character arguments. -/
def replaceChar (a b : Char) (l : List Char) : List Char :=
  l.map fun x => if x = a then b else x

/-- String from a character list. -/
def chrStr (l : List Char) : String := ⟨l⟩

/-! ## Python `float()` on decimal literals

`template_engine._parse_numeric_value` and `_convert_field_type` feed
cleaned decimal strings to `float()`.  The embedding denotes such a
literal exactly as a rational; forms that are no plain decimal literal
(exponents, `inf`, `nan`, underscores) are outside the cleaned strings the
engine produces and yield `none`, as does any other unparsable string
(Python raises `ValueError`, which the callers catch). -/

/-- Digit run to a natural number; `none` as soon as a non-digit occurs. -/
def digitsToNat : List Char → Option ℕ
  | [] => some 0
  | c :: t =>
    if c.isDigit then
      (digitsToNat t).map fun n => (c.toNat - 48) * 10 ^ t.length + n
    else none

/-- Python `float()` restricted to plain decimal literals: optional sign,
digits, at most one point, at least one digit. -/
def pyFloat (l : List Char) : Option ℚ :=
  let l := pyStrip l
  let (sgn, l) : ℚ × List Char :=
    match l with
    | '-' :: r => (-1, r)
    | '+' :: r => (1, r)
    | _ => (1, l)
  match splitChar '.' l with
  | [ip] =>
    if ip = [] then none else (digitsToNat ip).map fun n => sgn * n
  | [ip, fp] =>
    if ip = [] ∧ fp = [] then none
    else
      match digitsToNat ip, digitsToNat fp with
      | some n, some f => some (sgn * (n + (f : ℚ) / 10 ^ fp.length))
      | _, _ => none
  | _ => none

/-! ## `TemplateEngine._parse_numeric_value`

Locale-aware numeric parsing (template_engine.py lines 349–382). -/

/-- Characters removed when `remove_currency` is set:
`re.sub(r'[€$£¥\s]', '', cleaned)`. -/
def isCurrencyOrSpace (c : Char) : Bool :=
  c = '€' ∨ c = '$' ∨ c = '£' ∨ c = '¥' ∨ pyIsSpace c

/-- Separator resolution and parsing of `_parse_numeric_value`, on a
character list. -/
def parseNumericCore (value : List Char) (removeCurrency : Bool) : Option ℚ :=
  let cleaned := pyStrip value
  let cleaned := if removeCurrency then cleaned.filter (fun c => ¬ isCurrencyOrSpace c) else cleaned
  let cleaned :=
    if cleaned.contains ',' ∧ cleaned.contains '.' then
      if (lastIdx ',' cleaned).getD 0 > (lastIdx '.' cleaned).getD 0 then
        replaceChar ',' '.' (removeAll '.' cleaned)
      else
        removeAll ',' cleaned
    else if cleaned.contains ',' then
      let parts := splitChar ',' cleaned
      if parts.length = 2 ∧ (parts.getD 1 []).length ≤ 2 then
        replaceChar ',' '.' cleaned
      else
        removeAll ',' cleaned
    else cleaned
  pyFloat cleaned

/-- `TemplateEngine._parse_numeric_value(value_str, remove_currency)`. -/
def parseNumericValue (s : String) (removeCurrency : Bool) : Option ℚ :=
  parseNumericCore s.data removeCurrency

/-- Modelled from the spec's words, for comparison with the source
behaviour (claim C5): when only a comma is present it is a decimal
separator exactly when it is followed by exactly two digits, and a
thousands separator otherwise.  The both-separators rule and the rest of
the pipeline follow the same steps as the source. -/
def specParseNumericValue (s : String) (removeCurrency : Bool) : Option ℚ :=
  let cleaned := pyStrip s.data
  let cleaned := if removeCurrency then cleaned.filter (fun c => ¬ isCurrencyOrSpace c) else cleaned
  let cleaned :=
    if cleaned.contains ',' ∧ cleaned.contains '.' then
      if (lastIdx ',' cleaned).getD 0 > (lastIdx '.' cleaned).getD 0 then
        replaceChar ',' '.' (removeAll '.' cleaned)
      else
        removeAll ',' cleaned
    else if cleaned.contains ',' then
      let parts := splitChar ',' cleaned
      if parts.length = 2 ∧ (parts.getD 1 []).length = 2 ∧ (parts.getD 1 []).all Char.isDigit then
        replaceChar ',' '.' cleaned
      else
        removeAll ',' cleaned
    else cleaned
  pyFloat cleaned

/-! ## Template data model (template_models.py) -/

/-- Methods for extracting field values (`ExtractionMethod`). -/
inductive ExtractionMethod where
  | regex
  | position
  | keyword
  | table
  | ml_model
deriving DecidableEq

/-- Types of fields that can be extracted (`FieldType`). -/
inductive FieldType where
  | text
  | number
  | date
  | amount
  | percentage
  | vat_number
  | iban
  | email
  | phone
deriving DecidableEq

/-- Pattern for extracting a specific field (`FieldPattern`).  The
positional constraint fields (`min_x` …) are omitted: the positional
method is unimplemented in the engine and always yields no match. -/
structure FieldPattern where
  pattern : String
  method : ExtractionMethod
  field_type : FieldType
  case_sensitive : Bool := false
  multiline : Bool := false
  whole_word : Bool := false
  confidence_threshold : ℚ := 1/2
  validation_pattern : Option String := none
  required_context : List String := []
  forbidden_context : List String := []
  cleanup_pattern : Option String := none
  replacement_pattern : Option String := none
  priority : ℤ := 0
deriving DecidableEq

/-- Rule for extracting a field with multiple patterns (`ExtractionRule`).
`use_best_match`/`require_all` are carried by the source dataclass but
never read by the engine. -/
structure ExtractionRule where
  field_name : String
  field_type : FieldType
  patterns : List FieldPattern
  required : Bool := false
  min_confidence : ℚ := 3/10
  default_value : Option String := none
  fallback_patterns : List FieldPattern := []
deriving DecidableEq

/-- Template for supplier-specific extraction (`Template`): the fields the
engine and the selector read.  Table rules, locale fields other than
`currency`/`decimal_separator`, and usage statistics are not consulted by
the modelled logic. -/
structure Template where
  template_id : String
  name : String
  supplier_patterns : List FieldPattern := []
  supplier_name : Option String := none
  supplier_aliases : List String := []
  extraction_rules : List ExtractionRule := []
  currency : String := "EUR"
  decimal_separator : String := ","
deriving DecidableEq

/-! ## `TemplateEngine._calculate_pattern_confidence`

Confidence scoring of a regex match (template_engine.py lines 273–299).
The three hard-coded well-formedness regexes are implemented directly;
`$` in `re.match` also accepts one trailing newline. -/

/-- End of a `re.match(..., r'...$')` value: end of string or a single
trailing newline. -/
def endOk : List Char → Bool
  | [] => true
  | ['\n'] => true
  | _ => false

/-- Value matches `^\d+[.,]\d{2}$`. -/
def amountShape (l : List Char) : Bool :=
  let d := l.takeWhile Char.isDigit
  let r := l.drop d.length
  !d.isEmpty &&
    match r with
    | c :: c1 :: c2 :: rest => (c == '.' || c == ',') && c1.isDigit && c2.isDigit && endOk rest
    | _ => false

/-- Value matches the strict date format check: one or two digits, a
hyphen or slash, one or two digits, a hyphen or slash, then two to four
digits (the `re.match` expression at template_engine.py line 288). -/
def dateShape (l : List Char) : Bool :=
  let d1 := l.takeWhile Char.isDigit
  let r1 := l.drop d1.length
  (1 ≤ d1.length && d1.length ≤ 2) &&
    match r1 with
    | s1 :: r2 =>
      (s1 == '-' || s1 == '/') &&
        (let d2 := r2.takeWhile Char.isDigit
         let r3 := r2.drop d2.length
         (1 ≤ d2.length && d2.length ≤ 2) &&
           match r3 with
           | s2 :: r4 =>
             (s2 == '-' || s2 == '/') &&
               (let d3 := r4.takeWhile Char.isDigit
                (2 ≤ d3.length && d3.length ≤ 4) && endOk (r4.drop d3.length))
           | [] => false)
    | [] => false

/-- Uppercase ASCII letter. -/
def isUpperAZ (c : Char) : Bool := 'A' ≤ c && c ≤ 'Z'

/-- Value matches `^[A-Z]{2}\d{9}B\d{2}$`. -/
def vatShape (l : List Char) : Bool :=
  match l with
  | a :: b :: rest =>
    isUpperAZ a && isUpperAZ b &&
      (let d := rest.takeWhile Char.isDigit
       let r := rest.drop d.length
       d.length == 9 &&
         match r with
         | 'B' :: c1 :: c2 :: tail => c1.isDigit && c2.isDigit && endOk tail
         | _ => false)
  | _ => false

/-- `TemplateEngine._calculate_pattern_confidence(pattern, value, match)`:
`matchStart` is `match.start()`. -/
def calculatePatternConfidence (p : FieldPattern) (value : String) (matchStart : ℕ) : ℚ :=
  let c := p.confidence_threshold
  let c := if p.pattern.length > 10 then c + 1/10 else c
  let c :=
    match p.field_type with
    | .amount => if amountShape value.data then c + 2/10 else c
    | .date => if dateShape value.data then c + 2/10 else c
    | .vat_number => if vatShape value.data then c + 3/10 else c
    | _ => c
  let c := if matchStart < 1000 then c + 1/10 else c
  min c 1

/-- Modelled from the spec's words, for comparison with the source
behaviour (claim C6): confidence is the configured threshold, plus a
specificity bonus of +0.1 for a field-type-appropriate well-formed value
(an amount matching `\d+[.,]\d{2}` exactly, or a VAT identifier of the
country + 9-digit + check-letter + 2-digit shape), plus +0.1 when the
match starts within the first 1000 characters, clamped to the unit
interval. -/
def specPatternConfidence (p : FieldPattern) (value : String) (matchStart : ℕ) : ℚ :=
  let c := p.confidence_threshold
  let c :=
    match p.field_type with
    | .amount => if amountShape value.data then c + 1/10 else c
    | .vat_number => if vatShape value.data then c + 1/10 else c
    | _ => c
  let c := if matchStart < 1000 then c + 1/10 else c
  max (min c 1) 0

/-! ## Decimal arithmetic

The exporter works on `decimal.Decimal` values.  Addition, subtraction
and multiplication are exact there (the default context rounds only
beyond 28 significant digits, which the modelled magnitudes never reach)
and are embedded as exact `ℚ` operations.  Division rounds the quotient
to 28 significant digits with `ROUND_HALF_EVEN`; `decDiv28` reproduces
that. -/

/-- Number of decimal digits of `n` (1 for 0), computed with `n` itself
as recursion fuel. -/
def digitLenAux (fuel n : ℕ) : ℕ :=
  if fuel = 0 then 1
  else if n < 10 then 1
  else digitLenAux (fuel - 1) (n / 10) + 1

/-- Number of decimal digits of a natural number. -/
def digitLen (n : ℕ) : ℕ := digitLenAux n n

/-- Round `a / b` to the nearest natural number, ties to even
(`ROUND_HALF_EVEN`), for `b ≠ 0`. -/
def roundHalfEvenNat (a b : ℕ) : ℕ :=
  let q := a / b
  let r := a % b
  if 2 * r < b then q
  else if b < 2 * r then q + 1
  else if q % 2 = 0 then q else q + 1

/-- Floor of the base-10 logarithm of `a / b` for positive `a b`:
the exponent of the leading significant digit. -/
def quotExp10 (a b : ℕ) : ℤ :=
  if b ≤ a then (digitLen (a / b) : ℤ) - 1
  else
    let t0 := digitLen b - digitLen a
    if b ≤ a * 10 ^ t0 then -(t0 : ℤ) else -(t0 : ℤ) - 1

/-- Python `Decimal` division in the default context: the quotient
rounded to 28 significant digits, `ROUND_HALF_EVEN`.  Division by zero
raises in Python and never occurs at the modelled call sites; it is given
the junk value 0. -/
def decDiv28 (x y : ℚ) : ℚ :=
  if x = 0 ∨ y = 0 then 0
  else
    let a := x.num.natAbs * y.den
    let b := x.den * y.num.natAbs
    let e := quotExp10 a b
    let mag : ℚ :=
      if 27 ≤ e then
        let s := (e - 27).toNat
        (roundHalfEvenNat a (b * 10 ^ s) : ℚ) * 10 ^ s
      else
        let s := (27 - e).toNat
        (roundHalfEvenNat (a * 10 ^ s) b : ℚ) / 10 ^ s
    if (decide (x.num < 0)) = (decide (y.num < 0)) then mag else -mag

/-- Nearest integer, ties to even, as Python `round` /
`Decimal.quantize` with `ROUND_HALF_EVEN`. -/
def roundHalfEvenQ (q : ℚ) : ℤ :=
  let z := ⌊q⌋
  let f := q - z
  if f < 1/2 then z
  else if 1/2 < f then z + 1
  else if z % 2 = 0 then z else z + 1

/-- Python `round(x, 2)` on a `Decimal`: half-even rounding to two
fractional digits. -/
def round2 (q : ℚ) : ℚ := (roundHalfEvenQ (q * 100) : ℚ) / 100

/-! ## UBL invoice model (ubl_models.py)

Only fields that the modelled totals logic reads or writes are carried;
party, date, payment and identification blocks hold no monetary logic
and are omitted (the invoice id and currency are kept). -/

/-- `UBLTaxCategory`. -/
structure UBLTaxCategory where
  tax_category_id : String := "S"
  tax_category_name : String := "Standard rate"
  percent : Option ℚ := none
  tax_scheme_id : String := "VAT"
  tax_scheme_name : String := "VAT"
deriving DecidableEq

/-- `UBLTaxSubtotal`. -/
structure UBLTaxSubtotal where
  taxable_amount : ℚ := 0
  tax_amount : ℚ := 0
  currency_code : String := "EUR"
  tax_category : Option UBLTaxCategory := none
deriving DecidableEq

/-- `UBLTaxTotal`. -/
structure UBLTaxTotal where
  tax_amount : ℚ := 0
  currency_code : String := "EUR"
  tax_subtotals : List UBLTaxSubtotal := []
deriving DecidableEq

/-- `UBLPrice`. -/
structure UBLPrice where
  price_amount : ℚ := 0
  currency_code : String := "EUR"
  base_quantity : ℚ := 1
  unit_code : String := "EA"
deriving DecidableEq

/-- `UBLLineItem` (the generated `line_id` is the 1-based position). -/
structure UBLLineItem where
  line_id : String
  invoiced_quantity : ℚ := 1
  line_extension_amount : ℚ := 0
  currency_code : String := "EUR"
  unit_code : String := "EA"
  item_name : Option String := none
  item_description : Option String := none
  price : Option UBLPrice := none
  tax_category : Option UBLTaxCategory := none
deriving DecidableEq

/-- `UBLLegalMonetaryTotal`. -/
structure UBLLegalMonetaryTotal where
  line_extension_amount : ℚ := 0
  tax_exclusive_amount : ℚ := 0
  tax_inclusive_amount : ℚ := 0
  allowance_total_amount : ℚ := 0
  charge_total_amount : ℚ := 0
  prepaid_amount : ℚ := 0
  payable_amount : ℚ := 0
  currency_code : String := "EUR"
deriving DecidableEq

/-- `UBLInvoice`: the monetary skeleton. -/
structure UBLInvoice where
  invoice_id : String := "UNKNOWN"
  document_currency_code : String := "EUR"
  tax_total : List UBLTaxTotal := []
  legal_monetary_total : Option UBLLegalMonetaryTotal := none
  invoice_lines : List UBLLineItem := []
deriving DecidableEq

/-- `UBLInvoice.add_line_item(description, quantity, unit_price,
vat_rate, unit_code)`: appends the line and returns the new invoice. -/
def addLineItem (inv : UBLInvoice) (description : String) (quantity unit_price : ℚ)
    (vat_rate : Option ℚ) (unit_code : String) : UBLInvoice :=
  let line_extension_amount := quantity * unit_price
  let price : UBLPrice :=
    { price_amount := unit_price
      currency_code := inv.document_currency_code
      base_quantity := 1
      unit_code := unit_code }
  let tax_category : Option UBLTaxCategory :=
    vat_rate.map fun r =>
      { tax_category_id := "S"
        tax_category_name := "Standard rate"
        percent := some r
        tax_scheme_id := "VAT"
        tax_scheme_name := "VAT" }
  let line : UBLLineItem :=
    { line_id := toString (inv.invoice_lines.length + 1)
      invoiced_quantity := quantity
      line_extension_amount := line_extension_amount
      currency_code := inv.document_currency_code
      unit_code := unit_code
      item_name := some description
      item_description := some description
      price := some price
      tax_category := tax_category }
  { inv with invoice_lines := inv.invoice_lines ++ [line] }

/-- Per-category accumulator of `calculate_totals` (one entry of the
`tax_categories` dict, in insertion order). -/
structure TaxGroup where
  category_id : String
  taxable_amount : ℚ
  tax_amount : ℚ
  tax_category : UBLTaxCategory
deriving DecidableEq

/-- Tax contributed by one line inside `calculate_totals`:
`line_extension_amount * (percent / 100)` when `percent` is truthy
(`None` and 0 are falsy). -/
def lineTaxContribution (tc : UBLTaxCategory) (lea : ℚ) : ℚ :=
  match tc.percent with
  | some p => if p ≠ 0 then lea * decDiv28 p 100 else 0
  | none => 0

/-- Insert one line's amounts into the category accumulators, keyed by
`tax_category_id`, preserving first-appearance order as a Python dict
does. -/
def upsertGroup (tc : UBLTaxCategory) (lea : ℚ) : List TaxGroup → List TaxGroup
  | [] => [⟨tc.tax_category_id, lea, lineTaxContribution tc lea, tc⟩]
  | g :: rest =>
    if g.category_id = tc.tax_category_id then
      { g with
        taxable_amount := g.taxable_amount + lea
        tax_amount := g.tax_amount + lineTaxContribution tc lea } :: rest
    else g :: upsertGroup tc lea rest

/-- Sum of the line extension amounts of `calculate_totals`. -/
def lineExtSum (inv : UBLInvoice) : ℚ :=
  (inv.invoice_lines.map (·.line_extension_amount)).sum

/-- The `tax_categories` accumulator of `calculate_totals` after the
per-line loop: per-category taxable and tax amounts, in
first-appearance order. -/
def taxGroups (inv : UBLInvoice) : List TaxGroup :=
  inv.invoice_lines.foldl
    (fun gs line =>
      match line.tax_category with
      | some tc => upsertGroup tc line.line_extension_amount gs
      | none => gs) []

/-- The tax subtotals `calculate_totals` builds from the accumulator. -/
def taxSubtotalsOf (inv : UBLInvoice) : List UBLTaxSubtotal :=
  (taxGroups inv).map fun g =>
    { taxable_amount := g.taxable_amount
      tax_amount := g.tax_amount
      currency_code := inv.document_currency_code
      tax_category := some g.tax_category }

/-- The accumulated `total_tax_amount` of `calculate_totals`. -/
def totalTaxOf (inv : UBLInvoice) : ℚ := ((taxGroups inv).map (·.tax_amount)).sum

/-- `UBLInvoice.calculate_totals()` (ubl_models.py lines 178–234). -/
def calculateTotals (inv : UBLInvoice) : UBLInvoice :=
  if inv.invoice_lines = [] then inv
  else
    { inv with
      tax_total :=
        if taxSubtotalsOf inv ≠ [] then
          [{ tax_amount := totalTaxOf inv
             currency_code := inv.document_currency_code
             tax_subtotals := taxSubtotalsOf inv : UBLTaxTotal }]
        else inv.tax_total
      legal_monetary_total := some
        { line_extension_amount := lineExtSum inv
          tax_exclusive_amount := lineExtSum inv
          tax_inclusive_amount := lineExtSum inv + totalTaxOf inv
          payable_amount := lineExtSum inv + totalTaxOf inv
          currency_code := inv.document_currency_code } }

/-! ## UBL exporter (ubl_exporter.py)

The assembler input: the numeric and line-item portion of
`ExtractedInvoiceData`, with `Option` for Python `None` and Python
truthiness (`None` and 0 falsy) made explicit. -/

/-- One entry of `data.line_items`: a dict read through `.get` with the
defaults of `_add_line_items` (`quantity` 1, `unit_price` 0,
`total_amount` 0, `description` "Unknown item", `vat_rate` absent). -/
structure LineItemInput where
  description : Option String := none
  quantity : Option ℚ := none
  unit_price : Option ℚ := none
  total_amount : Option ℚ := none
  vat_rate : Option ℚ := none
deriving DecidableEq

/-- Numeric/line-item portion of `ExtractedInvoiceData` consumed by the
exporter. -/
structure InvoiceData where
  invoice_number : Option String := none
  currency : Option String := none
  total_amount : Option ℚ := none
  vat_amount : Option ℚ := none
  net_amount : Option ℚ := none
  line_items : List LineItemInput := []
deriving DecidableEq

/-- Exporter configuration: constructor defaults of `UBLExporter` plus
the optional `template_config['default_vat_rate']`. -/
structure ExporterCfg where
  default_currency : String := "EUR"
  default_vat_rate : ℚ := 21
  template_default_vat : Option ℚ := none
deriving DecidableEq

/-- Python truthiness of an optional number: `None` and 0 are falsy. -/
def truthyQ : Option ℚ → Bool
  | none => false
  | some q => q ≠ 0

/-- Python truthiness of an optional string: `None` and `""` are falsy. -/
def truthyS : Option String → Bool
  | none => false
  | some s => s ≠ ""

/-- Python `a or b` for an optional string against a default
(`data.currency or self.default_currency`). -/
def pyOrStr (o : Option String) (d : String) : String :=
  match o with
  | some s => if s = "" then d else s
  | none => d

/-- `UBLExporter._determine_vat_rate(item_data, template_config)`. -/
def determineVatRate (cfg : ExporterCfg) (it : LineItemInput) : ℚ :=
  match it.vat_rate with
  | some r => r
  | none =>
    match cfg.template_default_vat with
    | some r => r
    | none => cfg.default_vat_rate

/-- `UBLExporter._add_line_items(invoice, data, template_config)`:
derives the unit price as `total_amount / quantity` (a `Decimal`
division) when the unit price is 0 and both total and quantity are
positive. -/
def addLineItems (cfg : ExporterCfg) (inv : UBLInvoice) (items : List LineItemInput) : UBLInvoice :=
  items.foldl
    (fun inv it =>
      let description := it.description.getD "Unknown item"
      let quantity := it.quantity.getD 1
      let unit_price := it.unit_price.getD 0
      let total_amount := it.total_amount.getD 0
      let unit_price :=
        if unit_price = 0 ∧ 0 < total_amount ∧ 0 < quantity then decDiv28 total_amount quantity
        else unit_price
      let vat_rate := determineVatRate cfg it
      addLineItem inv description quantity unit_price (some vat_rate) "EA")
    inv

/-- `UBLExporter._add_summary_line_item(invoice, data)`. -/
def addSummaryLineItem (cfg : ExporterCfg) (inv : UBLInvoice) (d : InvoiceData) : UBLInvoice :=
  let net_amount : Option ℚ := if truthyQ d.net_amount then d.net_amount else d.total_amount
  let net_amount : Option ℚ :=
    if truthyQ d.vat_amount ∧ truthyQ d.total_amount then
      some (d.total_amount.getD 0 - d.vat_amount.getD 0)
    else net_amount
  let net_amount : ℚ :=
    if ¬ truthyQ net_amount then (if truthyQ d.total_amount then d.total_amount.getD 0 else 0)
    else net_amount.getD 0
  let vat_rate : ℚ :=
    if truthyQ d.vat_amount ∧ net_amount ≠ 0 ∧ 0 < net_amount then
      round2 (decDiv28 (d.vat_amount.getD 0) net_amount * 100)
    else cfg.default_vat_rate
  addLineItem inv "Invoice total" 1 net_amount (some vat_rate) "EA"

/-- `UBLExporter._validate_totals(invoice, data)` (ubl_exporter.py lines
259–283): when both the extracted and the computed totals are truthy and
their difference lies in (0.01, 1.00], the payable and tax-inclusive
amounts are overwritten with the extracted total; otherwise (the mismatch
is at most logged and) the invoice is unchanged. -/
def validateTotals (inv : UBLInvoice) (d : InvoiceData) : UBLInvoice :=
  match inv.legal_monetary_total with
  | none => inv
  | some lmt =>
    let calculated_total := lmt.payable_amount
    match d.total_amount with
    | none => inv
    | some extracted_total =>
      if extracted_total ≠ 0 ∧ calculated_total ≠ 0 then
        let difference := |calculated_total - extracted_total|
        if 1/100 < difference then
          if difference ≤ 1 then
            { inv with
              legal_monetary_total := some
                { lmt with
                  payable_amount := extracted_total
                  tax_inclusive_amount := extracted_total } }
          else inv
        else inv
      else inv

/-- Invoice skeleton built at the top of `_create_ubl_invoice`: the
identifier and the resolved currency (`data.currency or
self.default_currency`). -/
def baseInvoice (cfg : ExporterCfg) (d : InvoiceData) : UBLInvoice :=
  { invoice_id := d.invoice_number.getD "UNKNOWN"
    document_currency_code := pyOrStr d.currency cfg.default_currency
    tax_total := []
    legal_monetary_total := none
    invoice_lines := [] }

/-- Line-item stage of `_create_ubl_invoice`: the extracted line items,
then, when none produced a line and the extracted total is truthy, the
synthetic summary line. -/
def assembleLines (cfg : ExporterCfg) (d : InvoiceData) (inv : UBLInvoice) : UBLInvoice :=
  if (addLineItems cfg inv d.line_items).invoice_lines = [] ∧ truthyQ d.total_amount then
    addSummaryLineItem cfg (addLineItems cfg inv d.line_items) d
  else addLineItems cfg inv d.line_items

/-- `UBLExporter._create_ubl_invoice(data, template_config)`, restricted
to its monetary pipeline: currency resolution, line items, the synthetic
summary line, `calculate_totals` and `_validate_totals`.  Dates, party
and payment blocks carry no monetary logic and are not modelled. -/
def createUblInvoice (cfg : ExporterCfg) (d : InvoiceData) : UBLInvoice :=
  validateTotals (calculateTotals (assembleLines cfg d (baseInvoice cfg d))) d

/-- Sum of all tax-subtotal tax amounts of a document. -/
def docTaxSum (inv : UBLInvoice) : ℚ :=
  (inv.tax_total.map fun tt => (tt.tax_subtotals.map (·.tax_amount)).sum).sum

/-! ## Pattern application (template_engine.py lines 129–271)

Template-supplied regular expressions are evaluated by Python's `re`
library; the embedding abstracts that library as an oracle record and
quantifies theorems over it.  `search` already performs the engine's
group selection (`match.group(1) if match.groups() else match.group(0)`)
and returns the extracted value with the match start; `none` covers both
"no match" and an invalid expression (`re.error`, which the engine
catches and turns into no match). -/

/-- Oracle for the Python `re` library calls made with template-supplied
expressions, and for `datetime.strptime` date parsing. -/
structure PyRe where
  search : String → String → Bool → Bool → Option (String × ℕ)
  subst : String → String → String → String
  matchB : String → String → Bool
  searchCI : String → String → Bool
  strptime : String → Option String

/-- Oracle instance under which every library call misses; used to
instantiate oracle-quantified theorems at concrete inputs. -/
def trivRe : PyRe :=
  { search := fun _ _ _ _ => none
    subst := fun _ _ s => s
    matchB := fun _ _ => false
    searchCI := fun _ _ => false
    strptime := fun _ => none }

/-- `TemplateEngine._check_context(text, position, context_patterns,
required)`: the 100-character window around the match start. -/
def contextWindow (text : List Char) (position : ℕ) : List Char :=
  let start_pos := position - 100
  let end_pos := min text.length (position + 100)
  (text.drop start_pos).take (end_pos - start_pos)

/-- Loop body of `_check_context`: early `False` on a missing required
pattern, early `True` on a found forbidden pattern, else the value of
`required`. -/
def checkContextLoop (re : PyRe) (window : String) (required : Bool) : List String → Bool
  | [] => required
  | cp :: rest =>
    let found := re.searchCI cp window
    if required ∧ ¬ found then false
    else if ¬ required ∧ found then true
    else checkContextLoop re window required rest

/-- `TemplateEngine._check_context`. -/
def checkContext (re : PyRe) (text : List Char) (position : ℕ) (pats : List String)
    (required : Bool) : Bool :=
  checkContextLoop re (chrStr (contextWindow text position)) required pats

/-- `TemplateEngine._apply_regex_pattern(pattern, text)`. -/
def applyRegexPattern (re : PyRe) (p : FieldPattern) (text : String) : Option String × ℚ :=
  let regex := if p.whole_word then "\\b" ++ p.pattern ++ "\\b" else p.pattern
  match re.search regex text p.case_sensitive p.multiline with
  | none => (none, 0)
  | some (v0, start) =>
    let v1 := match p.cleanup_pattern with
      | some cp => re.subst cp "" v0
      | none => v0
    let v2 := match p.replacement_pattern with
      | some rp => re.subst p.pattern rp v1
      | none => v1
    let validationFails : Bool := match p.validation_pattern with
      | some vp => ! re.matchB vp v2
      | none => false
    if validationFails then (none, 0)
    else if p.required_context ≠ [] ∧ ¬ checkContext re text.data start p.required_context true then
      (none, 0)
    else if p.forbidden_context ≠ [] ∧ checkContext re text.data start p.forbidden_context false then
      (none, 0)
    else (some (chrStr (pyStrip v2.data)), calculatePatternConfidence p v2 start)

/-! Keyword patterns (`_apply_keyword_pattern`, lines 202–240) use two
fixed value expressions, `^[:\s]*([^\n\r]+)` and `^[:\s]*\n([^\n\r]+)`,
implemented here directly with the backtracking semantics of `re.match`
(the greedy `[:\s]*` backs off until the capture can start). -/

/-- Character class `[:\s]`. -/
def isColonSpace (c : Char) : Bool := c = ':' ∨ pyIsSpace c

/-- Newline characters excluded by `[^\n\r]`. -/
def isNL (c : Char) : Bool := c = '\n' ∨ c = '\r'

/-- Capture of `re.match(r'^[:\s]*([^\n\r]+)', l)`. -/
def kwValueSameLine (l : List Char) : Option (List Char) :=
  let k0 := (l.takeWhile isColonSpace).length
  if k0 < l.length then some ((l.drop k0).takeWhile (fun c => ¬ isNL c))
  else
    match l.reverse.dropWhile isNL with
    | [] => none
    | m => some ((l.drop (m.length - 1)).takeWhile (fun c => ¬ isNL c))

/-- Capture of `re.match(r'^[:\s]*\n([^\n\r]+)', l)`: the largest
newline position reachable by the greedy skip, followed by at least one
non-newline character. -/
def kwValueNextLine (l : List Char) : Option (List Char) :=
  let k0 := (l.takeWhile isColonSpace).length
  match (List.range k0).reverse.find? (fun k =>
      (l.getD k ' ' == '\n') &&
        match l.drop (k + 1) with
        | [] => false
        | c :: _ => ! isNL c) with
  | some k => some ((l.drop (k + 1)).takeWhile (fun c => ¬ isNL c))
  | none => none

/-- Cleanup applied to a keyword-extracted value: `strip()`, then
`re.sub(r'^[:\-\s]+', '')` and `re.sub(r'[:\-\s]+$', '')`; an empty
result is rejected (falsy). -/
def kwCleanValue (cap : List Char) : Option (List Char) :=
  let v := pyStrip cap
  let isSep : Char → Bool := fun c => c = ':' ∨ c = '-' ∨ pyIsSpace c
  let v := v.dropWhile isSep
  let v := (v.reverse.dropWhile isSep).reverse
  if v = [] then none else some v

/-- Value extraction after a keyword: the two value expressions in
order, each followed by the cleanup, first nonempty result wins. -/
def kwExtractValue (after : List Char) : Option (List Char) :=
  match (kwValueSameLine after).bind kwCleanValue with
  | some v => some v
  | none => (kwValueNextLine after).bind kwCleanValue

/-- Loop of `TemplateEngine._apply_keyword_pattern` over the `|`-split
keywords. -/
def kwLoop (p : FieldPattern) (text : String) : List (List Char) → Option String × ℚ
  | [] => (none, 0)
  | kw :: rest =>
    let kwS := pyStrip kw
    let found :=
      if p.case_sensitive then findSub text.data kwS
      else findSub (lowerL text.data) (lowerL kwS)
    match found with
    | some i =>
      match kwExtractValue (pyStrip (text.data.drop (i + kwS.length))) with
      | some v => (some (chrStr v), p.confidence_threshold)
      | none => kwLoop p text rest
    | none => kwLoop p text rest

/-- `TemplateEngine._apply_keyword_pattern(pattern, text)`. -/
def applyKeywordPattern (p : FieldPattern) (text : String) : Option String × ℚ :=
  kwLoop p text (splitChar '|' p.pattern.data)

/-- `TemplateEngine._apply_pattern(pattern, raw_text, positioned_text)`:
the positional method is unimplemented and yields no match, as does any
unsupported method. -/
def applyPattern (re : PyRe) (p : FieldPattern) (text : String) : Option String × ℚ :=
  match p.method with
  | .regex => applyRegexPattern re p text
  | .keyword => applyKeywordPattern p text
  | .position => (none, 0)
  | .table => (none, 0)
  | .ml_model => (none, 0)

/-! ## Supplier matching and template selection -/

/-- Alias fold of `match_supplier`: `best = max(best, 0.7)` per alias
found in the text. -/
def aliasScore (textL : List Char) (aliases : List String) (b : ℚ) : ℚ :=
  aliases.foldl (fun b al => if containsSub textL (lowerL al.data) then max b (7/10) else b) b

/-- Supplier-pattern fold of `match_supplier`: a truthy value with a
confidence above the running best replaces it and is boosted by +0.3
when it contains the declared supplier name and by +0.2 per contained
alias. -/
def supplierPatternScore (re : PyRe) (t : Template) (text : String) (b : ℚ) : ℚ :=
  t.supplier_patterns.foldl
    (fun b pat =>
      let vc := applyPattern re pat text
      match vc.1 with
      | some s =>
        if s ≠ "" ∧ vc.2 > b then
          let b1 := vc.2
          let b2 := match t.supplier_name with
            | some nm =>
              if nm ≠ "" ∧ containsSub (lowerL s.data) (lowerL nm.data) then b1 + 3/10 else b1
            | none => b1
          t.supplier_aliases.foldl
            (fun bb al => if containsSub (lowerL s.data) (lowerL al.data) then bb + 2/10 else bb)
            b2
        else b
      | none => b)
    b

/-- `TemplateEngine.match_supplier(template, raw_text)` (lines 465–513):
returns the match flag (best confidence strictly above 0.5) and the best
confidence clamped above by 1. -/
def matchSupplier (re : PyRe) (t : Template) (text : String) : Bool × ℚ :=
  let textL := lowerL text.data
  let b0 : ℚ := 0
  let b1 := match t.supplier_name with
    | some nm => if nm ≠ "" ∧ containsSub textL (lowerL nm.data) then max b0 (8/10) else b0
    | none => b0
  let b2 := aliasScore textL t.supplier_aliases b1
  let b3 := supplierPatternScore re t text b2
  (b3 > 1/2, min b3 1)

/-- `TemplateManager.get_templates_by_supplier(supplier_name)`: templates
whose declared supplier name contains the hint, or one of whose aliases
is contained in the hint (case-insensitive both ways round). -/
def templatesBySupplier (catalog : List Template) (hint : String) : List Template :=
  catalog.filter fun t =>
    (match t.supplier_name with
      | some nm => (nm != "") && containsSub (lowerL nm.data) (lowerL hint.data)
      | none => false) ||
    t.supplier_aliases.any fun al => containsSub (lowerL hint.data) (lowerL al.data)

/-- One candidate step of `find_best_template`: the generic template is
skipped, a matching candidate with a strictly higher confidence replaces
the running best. -/
def bestStep (re : PyRe) (text : String) (acc : Option Template × ℚ) (t : Template) :
    Option Template × ℚ :=
  if t.template_id = "generic_nl" then acc
  else if (matchSupplier re t text).1 ∧ (matchSupplier re t text).2 > acc.2 then
    (some t, (matchSupplier re t text).2)
  else acc

/-- Candidate fold of `find_best_template`: skip the generic template,
track a matching candidate with a strictly higher confidence. -/
def bestCandidate (re : PyRe) (text : String) (cands : List Template) :
    Option Template × ℚ :=
  cands.foldl (bestStep re text) (none, 0)

/-- `TemplateManager.find_best_template(raw_text, supplier_hint)`
(template_manager.py lines 90–133): the best matching non-generic
template when its score reaches 0.5, else the `generic_nl` template of
the catalog. -/
def findBestTemplate (re : PyRe) (catalog : List Template) (text : String)
    (hint : Option String) : Option Template :=
  let candidates :=
    match hint with
    | some h =>
      if h = "" then catalog
      else
        let st := templatesBySupplier catalog h
        if st ≠ [] then st else catalog
    | none => catalog
  let best := bestCandidate re text candidates
  match best.1 with
  | some t => if best.2 ≥ 1/2 then some t else catalog.find? (·.template_id = "generic_nl")
  | none => catalog.find? (·.template_id = "generic_nl")

/-! ## Field resolution (`_extract_field`, `_convert_field_type`) -/

/-- Typed value of an extracted field, as `_convert_field_type` produces
it: a string, a parsed number/amount/percentage, or a parsed date (held
as its normalised representation from the `strptime` oracle). -/
inductive FieldValue where
  | text (s : String)
  | num (q : ℚ)
  | date (s : String)
deriving DecidableEq

/-- `TemplateEngine._convert_field_type(value, field_type)` on the string
values extraction produces.  A failed numeric parse yields `none` (the
source returns `None`); a failed percentage or date parse returns the
original string (the source catches the error / falls through). -/
def convertFieldType (re : PyRe) (s : String) (ft : FieldType) : Option FieldValue :=
  match ft with
  | .number => (parseNumericValue s false).map .num
  | .amount => (parseNumericValue s true).map .num
  | .percentage =>
    match pyFloat (replaceChar ',' '.' (s.data.filter (· ≠ '%'))) with
    | some q => some (.num q)
    | none => some (.text s)
  | .date =>
    match re.strptime s with
    | some d => some (.date d)
    | none => some (.text s)
  | _ => some (.text s)

/-- Supplier-name special case at the end of `_extract_field`: a truthy
converted value whose lower-casing is `"vdx"` becomes `"VDX"`. -/
def vdxNormalize (field_name : String) (v : Option FieldValue) : Option FieldValue :=
  if field_name = "supplier_name" then
    match v with
    | some (.text s) =>
      if s ≠ "" ∧ chrStr (lowerL s.data) = "vdx" then some (.text "VDX") else v
    | _ => v
  else v

/-- Stable insertion for the descending-priority sort of
`sorted(rule.patterns, key=lambda p: p.priority, reverse=True)`. -/
def insertByPriority (x : FieldPattern) : List FieldPattern → List FieldPattern
  | [] => [x]
  | y :: ys => if y.priority > x.priority then y :: insertByPriority x ys else x :: y :: ys

/-- Stable descending sort by priority. -/
def sortPatternsDesc (l : List FieldPattern) : List FieldPattern :=
  l.foldr insertByPriority []

/-- Main pattern loop of `_extract_field`: keep the best
`(value, confidence)`, stop as soon as a kept confidence exceeds 0.9. -/
def tryPatterns (re : PyRe) (text : String) : List FieldPattern → Option String × ℚ →
    Option String × ℚ
  | [], acc => acc
  | p :: ps, acc =>
    if (applyPattern re p text).1 ≠ none ∧ (applyPattern re p text).2 > acc.2 then
      if (applyPattern re p text).2 > 9/10 then applyPattern re p text
      else tryPatterns re text ps (applyPattern re p text)
    else tryPatterns re text ps acc

/-- Fallback pattern loop of `_extract_field` (no early stop). -/
def tryFallbacks (re : PyRe) (text : String) : List FieldPattern → Option String × ℚ →
    Option String × ℚ
  | [], acc => acc
  | p :: ps, acc =>
    tryFallbacks re text ps
      (if (applyPattern re p text).1 ≠ none ∧ (applyPattern re p text).2 > acc.2 then
        applyPattern re p text
      else acc)

/-- First two stages of `TemplateEngine._extract_field`: the main
pattern loop over the priority-sorted patterns, then the fallback loop
when the best confidence is below the rule's minimum. -/
def extractFieldAcc (re : PyRe) (rule : ExtractionRule) (text : String) :
    Option String × ℚ :=
  if (tryPatterns re text (sortPatternsDesc rule.patterns) (none, 0)).2 <
      rule.min_confidence ∧ rule.fallback_patterns ≠ [] then
    tryFallbacks re text rule.fallback_patterns
      (tryPatterns re text (sortPatternsDesc rule.patterns) (none, 0))
  else tryPatterns re text (sortPatternsDesc rule.patterns) (none, 0)

/-- Third stage of `TemplateEngine._extract_field`: the static default
value with the fixed confidence 0.1 when no pattern produced a value. -/
def extractFieldRaw (re : PyRe) (rule : ExtractionRule) (text : String) :
    Option String × ℚ :=
  if (extractFieldAcc re rule text).1 = none then
    match rule.default_value with
    | some d => (some d, 1/10)
    | none => extractFieldAcc re rule text
  else extractFieldAcc re rule text

/-- `TemplateEngine._extract_field(rule, raw_text, positioned_text)`
(lines 81–127): the raw string value is type-converted and the
supplier-name special case applied, the confidence passed through. -/
def extractField (re : PyRe) (rule : ExtractionRule) (text : String) :
    Option FieldValue × ℚ :=
  match extractFieldRaw re rule text with
  | (none, c) => (none, c)
  | (some s, c) => (vdxNormalize rule.field_name (convertFieldType re s rule.field_type), c)

/-! ## The extracted record and post-processing -/

/-- The portion of `ExtractedInvoiceData` the engine writes: attribute
values keyed by field name (an association list, freshest entry first,
as `setattr` overwrites), the parallel confidence map, the line items
and the audit fields. -/
structure ExtractedData where
  raw_text : String := ""
  extraction_method : String := ""
  fields : List (String × FieldValue) := []
  confidence_scores : List (String × ℚ) := []
  line_items : List LineItemInput := []
deriving DecidableEq

/-- Attribute read (`getattr(data, name, None)`). -/
def getF (d : ExtractedData) (k : String) : Option FieldValue :=
  (d.fields.find? (·.1 = k)).map (·.2)

/-- Attribute write (`setattr(data, name, value)`). -/
def setF (d : ExtractedData) (k : String) (v : FieldValue) : ExtractedData :=
  { d with fields := (k, v) :: d.fields }

/-- Confidence map read. -/
def getConf (d : ExtractedData) (k : String) : Option ℚ :=
  (d.confidence_scores.find? (·.1 = k)).map (·.2)

/-- Python truthiness of an optional field value. -/
def truthyField : Option FieldValue → Bool
  | none => false
  | some (.text s) => s ≠ ""
  | some (.num q) => q ≠ 0
  | some (.date _) => true

/-- One step of the decimal-separator conversion at the top of
`_post_process_data`: a truthy string value of an amount attribute is
re-parsed with the numeric parser and replaced on success. -/
def reparseAmountField (d : ExtractedData) (f : String) : ExtractedData :=
  match getF d f with
  | some (.text s) =>
    if s ≠ "" then
      match parseNumericValue s true with
      | some q => setF d f (.num q)
      | none => d
    else d
  | _ => d

/-- Decimal-separator conversion step of `_post_process_data`: applied
to the three amount attributes when the template's decimal separator is
a comma. -/
def convertSeparators (t : Template) (d : ExtractedData) : ExtractedData :=
  if t.decimal_separator = "," then
    ["total_amount", "vat_amount", "net_amount"].foldl reparseAmountField d
  else d

/-- Currency defaulting step of `_post_process_data`: a falsy currency
attribute is set from the template. -/
def defaultCurrency (t : Template) (d : ExtractedData) : ExtractedData :=
  if ¬ truthyField (getF d "currency") then setF d "currency" (.text t.currency) else d

/-- Amount-derivation step of `_post_process_data`: derive the missing
one of net/total from the other two amounts.  The subtraction and
addition act on attribute values, which are numbers whenever truthy in
the modelled numeric state (on a non-numeric string Python would raise,
which no claim exercises). -/
def deriveMissingAmounts (d : ExtractedData) : ExtractedData :=
  if truthyField (getF d "total_amount") ∧ truthyField (getF d "vat_amount") ∧
      ¬ truthyField (getF d "net_amount") then
    match getF d "total_amount", getF d "vat_amount" with
    | some (.num a), some (.num b) => setF d "net_amount" (.num (a - b))
    | _, _ => d
  else if truthyField (getF d "net_amount") ∧ truthyField (getF d "vat_amount") ∧
      ¬ truthyField (getF d "total_amount") then
    match getF d "net_amount", getF d "vat_amount" with
    | some (.num a), some (.num b) => setF d "total_amount" (.num (a + b))
    | _, _ => d
  else d

/-- `TemplateEngine._post_process_data(data, template)` (lines 441–463):
re-parse stringly amounts when the template's decimal separator is a
comma, default the currency from the template, then derive the missing
one of net/total from the other two amounts. -/
def postProcessData (t : Template) (d : ExtractedData) : ExtractedData :=
  deriveMissingAmounts (defaultCurrency t (convertSeparators t d))

/-- One rule of the field-extraction loop of `apply_template`: a rule
whose extraction yields a value writes the value and its confidence,
one that yields nothing writes neither. -/
def applyRuleStep (re : PyRe) (text : String) (d : ExtractedData)
    (rule : ExtractionRule) : ExtractedData :=
  match extractField re rule text with
  | (some fv, c) =>
    { d with
      fields := (rule.field_name, fv) :: d.fields
      confidence_scores := (rule.field_name, c) :: d.confidence_scores }
  | (none, _) => d

/-- `TemplateEngine.apply_template(template, raw_text, tables,
positioned_text)` (lines 25–79), for the `tables = None` path: the field
extraction loop populating values and confidences, the line items found
by the table/text line-item stage supplied as `items` (that stage writes
only `data.line_items` and never touches the field or confidence maps),
then post-processing. -/
def applyTemplateFields (re : PyRe) (t : Template) (text : String)
    (items : List LineItemInput) : ExtractedData :=
  let d0 : ExtractedData :=
    { raw_text := text
      extraction_method := "template:" ++ t.template_id
      fields := []
      confidence_scores := []
      line_items := [] }
  let d1 := t.extraction_rules.foldl (applyRuleStep re text) d0
  let d2 := { d1 with line_items := items }
  postProcessData t d2

section ClaimTheorems

/-! ## Claim C5 — locale-aware numeric parsing -/

/-- Claim C5, counterexample.  The claim's lone-comma rule ("a decimal
separator exactly when followed by exactly two digits, otherwise a
thousands separator") predicts `"1,5"` parses as 15; the source treats a
single comma followed by at most two digits as a decimal separator and
parses `"1,5"` as 1.5. -/
theorem C5_counterexample :
    parseNumericValue "1,5" false = some (3/2) ∧
    specParseNumericValue "1,5" false = some 15 ∧
    (3/2 : ℚ) ≠ 15 := by
  refine ⟨?_, ?_, by norm_num⟩ <;>
    simp [parseNumericValue, specParseNumericValue, parseNumericCore, pyStrip, lstrip, rstrip,
      pyIsSpace, isCurrencyOrSpace, lastIdx, lastIdxAux, removeAll, replaceChar, splitChar,
      pyFloat, digitsToNat] <;> norm_num

/-- Claim C5, amended.  Separator resolution of the numeric parser: with
both separators present the one occurring last is the decimal separator;
with only a comma present, a single comma followed by at most two
characters is a decimal separator (so `"1,5"` parses as 1.5, not 15) and
it is a thousands separator otherwise; `"1.234,56"`, `"1234,56"` and
`"1,234.56"` all parse to 1234.56. -/
theorem C5_parse_numeric_separators :
    parseNumericValue "1.234,56" true = some (123456/100) ∧
    parseNumericValue "1234,56" true = some (123456/100) ∧
    parseNumericValue "1,234.56" true = some (123456/100) ∧
    parseNumericValue "1,5" false = some (15/10) ∧
    parseNumericValue "1,234" false = some 1234 ∧
    parseNumericValue "12,34,56" false = some 123456 := by
  refine ⟨?_, ?_, ?_, ?_, ?_, ?_⟩ <;>
    simp [parseNumericValue, parseNumericCore, pyStrip, lstrip, rstrip,
      pyIsSpace, isCurrencyOrSpace, lastIdx, lastIdxAux, removeAll, replaceChar, splitChar,
      pyFloat, digitsToNat] <;> norm_num

/-! ## Claim C6 — pattern match confidence -/

/-- Concrete pattern for the C6 counterexample: a short expression (no
length bonus), amount field type, threshold 0.5. -/
def c6Pattern : FieldPattern :=
  { pattern := "pat", method := .regex, field_type := .amount, confidence_threshold := 1/2 }

/-- Claim C6, counterexample.  For a well-formed amount value matched
beyond the first 1000 characters, the source awards a +0.2 bonus
(total 0.7), while the claim's +0.1 specificity bonus predicts 0.6. -/
theorem C6_counterexample :
    calculatePatternConfidence c6Pattern "123.45" 1500 = 7/10 ∧
    specPatternConfidence c6Pattern "123.45" 1500 = 6/10 ∧
    (7/10 : ℚ) ≠ 6/10 := by
  refine ⟨?_, ?_, by norm_num⟩ <;>
    simp [calculatePatternConfidence, specPatternConfidence, c6Pattern, amountShape, endOk,
      String.length] <;> norm_num [min_def]

/-- Claim C6, amended.  The confidence of an expression match is the
pattern's configured threshold, plus +0.1 when the pattern expression is
longer than 10 characters, plus +0.2 for a well-formed amount or date
value, plus +0.3 for a well-formed VAT identifier, plus +0.1 when the
match starts within the first 1000 characters, clamped above at 1 (the
threshold is nonnegative in practice, so the result stays in the unit
interval). -/
theorem C6_pattern_confidence (p : FieldPattern) (value : String) (matchStart : ℕ) :
    calculatePatternConfidence p value matchStart =
      min (p.confidence_threshold
        + (if p.pattern.length > 10 then 1/10 else 0)
        + (if p.field_type = .amount ∧ amountShape value.data then 2/10 else 0)
        + (if p.field_type = .date ∧ dateShape value.data then 2/10 else 0)
        + (if p.field_type = .vat_number ∧ vatShape value.data then 3/10 else 0)
        + (if matchStart < 1000 then 1/10 else 0)) 1 := by
  cases hft : p.field_type <;>
    simp only [calculatePatternConfidence, hft, reduceCtorEq, false_and, if_false, ite_false,
      true_and, add_zero] <;>
    split_ifs <;> first | rfl | (congr 1 <;> ring) | norm_num

/-! ## Claim C10 — unit price derivation for line items -/

/-- Line item with zero unit price whose total 10 does not divide its
quantity 3 exactly in 28-significant-digit decimal arithmetic. -/
def c10Item : LineItemInput := { quantity := some 3, total_amount := some 10 }

/-- Claim C10, counterexample.  For quantity 3 and total 10, the derived
unit price is the 28-significant-digit decimal 3.333…3, so the line
extension amount is 9.999999999999999999999999999 and not the stated
total 10. -/
theorem C10_counterexample :
    ((addLineItems {} {} [c10Item]).invoice_lines.map (·.line_extension_amount)) =
      [((10:ℚ)^28 - 1)/10^27] ∧
    ((10:ℚ)^28 - 1)/10^27 ≠ 10 := by
  have hdiv : decDiv28 10 3 = 3333333333333333333333333333/10^27 := by
    simp [decDiv28, quotExp10, digitLen, digitLenAux, roundHalfEvenNat] <;> norm_num
  constructor
  · simp only [addLineItems, addLineItem, c10Item, determineVatRate, List.foldl]
    norm_num [hdiv]
  · norm_num

/-- Claim C10, amended.  When a line item's unit price is 0 while its
total amount and quantity are positive, the assembler derives the unit
price as the `Decimal` quotient total/quantity (rounded to 28
significant digits), and the created line's extension amount is quantity
times that quotient — equal to the stated total exactly when the decimal
division is exact, and off by a sub-10⁻²⁵ rounding residue otherwise. -/
theorem C10_unit_price_derivation (cfg : ExporterCfg) (inv : UBLInvoice)
    (it : LineItemInput) (q t : ℚ)
    (hq : it.quantity = some q) (ht : it.total_amount = some t)
    (hu : it.unit_price.getD 0 = 0) (hq0 : 0 < q) (ht0 : 0 < t) :
    ((addLineItems cfg inv [it]).invoice_lines.map (·.line_extension_amount) =
      inv.invoice_lines.map (·.line_extension_amount) ++ [q * decDiv28 t q]) ∧
    ((addLineItems cfg inv [it]).invoice_lines.map (fun l => l.price.map (·.price_amount)) =
      inv.invoice_lines.map (fun l => l.price.map (·.price_amount)) ++ [some (decDiv28 t q)]) ∧
    (decDiv28 t q = t / q → q * decDiv28 t q = t) := by
  refine ⟨?_, ?_, ?_⟩
  · simp [addLineItems, addLineItem, hq, ht, hu, hq0, ht0]
  · simp [addLineItems, addLineItem, hq, ht, hu, hq0, ht0]
  · intro hexact
    rw [hexact, mul_div_cancel₀ _ (ne_of_gt hq0)]

/-- Witness for C10 at quantity 2, total 9: the decimal division is
exact (4.5) and the line extension amount equals the stated total. -/
theorem C10_witness :
    (({ quantity := some 2, total_amount := some 9 } : LineItemInput).quantity = some 2 ∧
     ({ quantity := some 2, total_amount := some 9 } : LineItemInput).total_amount = some 9 ∧
     ({ quantity := some 2, total_amount := some 9 } : LineItemInput).unit_price.getD 0 = 0 ∧
     (0:ℚ) < 2 ∧ (0:ℚ) < 9) ∧
    (((addLineItems {} {} [{ quantity := some 2, total_amount := some 9 }]).invoice_lines.map
        (·.line_extension_amount) =
      ([] : List UBLLineItem).map (·.line_extension_amount) ++ [2 * decDiv28 9 2]) ∧
     ((addLineItems {} {} [{ quantity := some 2, total_amount := some 9 }]).invoice_lines.map
        (fun l => l.price.map (·.price_amount)) =
      ([] : List UBLLineItem).map (fun l => l.price.map (·.price_amount)) ++
        [some (decDiv28 9 2)]) ∧
     (decDiv28 9 2 = 9 / 2 → 2 * decDiv28 9 2 = 9)) :=
  ⟨⟨rfl, rfl, rfl, by norm_num, by norm_num⟩,
    C10_unit_price_derivation {} {} _ 2 9 rfl rfl rfl (by norm_num) (by norm_num)⟩

/-! ## Claim C3 — total validation and adjustment -/

/-- Invoice state after the override branch of `_validate_totals`: the
payable and tax-inclusive amounts replaced by the extracted total. -/
def overrideTotals (inv : UBLInvoice) (L : UBLLegalMonetaryTotal) (e : ℚ) : UBLInvoice :=
  { inv with
    legal_monetary_total := some
      { L with payable_amount := e, tax_inclusive_amount := e } }

/-- Claim C3, amended.  `_validate_totals` overrides the payable and
tax-inclusive amounts with the extracted total exactly when both totals
are truthy and their absolute difference lies strictly between 0.01 and
1.00 inclusive; in every other case — including a nonzero difference of
at most 0.01 — the invoice is left unchanged, so the computed value is
kept. -/
theorem C3_validate_totals (inv : UBLInvoice) (d : InvoiceData)
    (L : UBLLegalMonetaryTotal) (e : ℚ)
    (hL : inv.legal_monetary_total = some L) (he : d.total_amount = some e)
    (he0 : e ≠ 0) (hc0 : L.payable_amount ≠ 0) :
    (1/100 < |L.payable_amount - e| ∧ |L.payable_amount - e| ≤ 1 →
      validateTotals inv d = overrideTotals inv L e) ∧
    (¬ (1/100 < |L.payable_amount - e| ∧ |L.payable_amount - e| ≤ 1) →
      validateTotals inv d = inv) := by
  constructor
  · intro h
    simp only [validateTotals, hL, he, overrideTotals]
    split_ifs with h1 h2 h3
    · rfl
    · exact absurd h.2 h3
    · exact absurd h.1 h2
    · exact absurd ⟨he0, hc0⟩ h1
  · intro h
    simp only [validateTotals, hL, he]
    split_ifs with h1 h2 h3
    · exact absurd ⟨h2, h3⟩ h
    · rfl
    · rfl
    · rfl

/-- Legal monetary total with computed payable 121.00 for C3. -/
def c3L : UBLLegalMonetaryTotal :=
  { line_extension_amount := 100, tax_exclusive_amount := 100,
    tax_inclusive_amount := 121, payable_amount := 121 }

/-- Invoice with computed payable total 121.00 for the C3 theorems. -/
def c3Inv : UBLInvoice := { legal_monetary_total := some c3L }

/-- Claim C3, counterexample.  With an extracted total of 121.01 the
difference from the computed 121.00 is 0.01 ≤ 1.00, yet the computed
value is kept (the source only adjusts when the difference strictly
exceeds 0.01), contradicting the claim that any difference of at most
1.00 is overridden to the extracted total. -/
theorem C3_counterexample :
    validateTotals c3Inv { total_amount := some (12101/100) } = c3Inv ∧
    |(121 : ℚ) - 12101/100| ≤ 1 ∧
    (c3Inv.legal_monetary_total.map (·.payable_amount) ≠ some (12101/100)) := by
  have habs : |(121 : ℚ) - 12101/100| = 1/100 := by
    rw [show (121:ℚ) - 12101/100 = -(1/100) by norm_num, abs_neg]
    exact abs_of_pos (by norm_num)
  refine ⟨?_, by rw [habs]; norm_num, ?_⟩
  · simp only [validateTotals, c3Inv, c3L]
    split_ifs with h1 h2 h3
    · rw [show ((121:ℚ) - 12101/100) = -(1/100) by norm_num, abs_neg,
        abs_of_pos (by norm_num : (0:ℚ) < 1/100)] at h2
      exact absurd h2 (lt_irrefl _)
    · rfl
    · rfl
    · rfl
  · simp only [c3Inv, c3L, Option.map_some]
    intro h
    have := Option.some.inj h
    norm_num at this

/-- Witness for C3 at computed 121.00 against extracted 121.50: the
difference 0.50 lies in (0.01, 1.00], so the override branch applies. -/
theorem C3_witness :
    (c3Inv.legal_monetary_total = some c3L ∧
     ({ total_amount := some (243/2) } : InvoiceData).total_amount = some (243/2) ∧
     (243/2 : ℚ) ≠ 0 ∧ c3L.payable_amount ≠ 0) ∧
    ((1/100 < |c3L.payable_amount - 243/2| ∧ |c3L.payable_amount - 243/2| ≤ 1 →
      validateTotals c3Inv { total_amount := some (243/2) } = overrideTotals c3Inv c3L (243/2)) ∧
     (¬ (1/100 < |c3L.payable_amount - 243/2| ∧ |c3L.payable_amount - 243/2| ≤ 1) →
      validateTotals c3Inv { total_amount := some (243/2) } = c3Inv)) :=
  ⟨⟨rfl, rfl, by norm_num, by norm_num [c3L]⟩,
    C3_validate_totals c3Inv { total_amount := some (243/2) } c3L (243/2) rfl rfl
      (by norm_num) (by norm_num [c3L])⟩

/-! ## Claims C2 and C4 — monetary reconciliation in post-processing -/

/-- Writing one attribute leaves every other attribute unchanged. -/
theorem getF_setF_other (d : ExtractedData) (f k : String) (v : FieldValue) (h : f ≠ k) :
    getF (setF d f v) k = getF d k := by
  simp [getF, setF, List.find?, h]

/-- Reading back a written attribute. -/
theorem getF_setF_same (d : ExtractedData) (f : String) (v : FieldValue) :
    getF (setF d f v) f = some v := by
  simp [getF, setF, List.find?]

/-- The decimal-separator re-parse of one amount attribute is the
identity when that attribute holds no nonempty string. -/
theorem reparseAmountField_noop (d : ExtractedData) (f : String)
    (h : ∀ s, getF d f = some (.text s) → s = "") :
    reparseAmountField d f = d := by
  unfold reparseAmountField
  cases hg : getF d f with
  | none => rfl
  | some v =>
    cases v with
    | text s => simp [hg, h s hg]
    | num q => rfl
    | date s => rfl

/-- The re-parse of one amount attribute never touches a different
attribute. -/
theorem getF_reparse_other (d : ExtractedData) (f k : String) (h : f ≠ k) :
    getF (reparseAmountField d f) k = getF d k := by
  unfold reparseAmountField
  cases hg : getF d f with
  | none => rfl
  | some v =>
    cases v with
    | text s =>
      by_cases hs : s = ""
      · simp [hs]
      · simp only [hs, ne_eq, not_false_iff, if_true]
        cases parseNumericValue s true with
        | none => rfl
        | some q => exact getF_setF_other d f k (.num q) h
    | num q => rfl
    | date s => rfl

/-- An attribute that is not truthy is left alone by its own re-parse
step (only nonempty strings are re-parsed). -/
theorem reparseAmountField_noop_of_falsy (d : ExtractedData) (f : String)
    (h : truthyField (getF d f) = false) :
    reparseAmountField d f = d := by
  apply reparseAmountField_noop
  intro s hs
  rw [hs] at h
  simpa [truthyField] using h

/-- The re-parse fold never touches the confidence map. -/
theorem confs_reparse_fold (l : List String) (d : ExtractedData) :
    (l.foldl reparseAmountField d).confidence_scores = d.confidence_scores := by
  induction l generalizing d with
  | nil => rfl
  | cons f rest ih =>
    rw [List.foldl_cons, ih]
    unfold reparseAmountField
    cases getF d f with
    | none => rfl
    | some v =>
      cases v with
      | text s =>
        by_cases hs : s = ""
        · simp [hs]
        · simp only [hs, ne_eq, not_false_iff, if_true]
          cases parseNumericValue s true <;> rfl
      | num q => rfl
      | date s => rfl

/-- Each separator-conversion pass keeps the confidence map. -/
theorem confs_convertSeparators (t : Template) (d : ExtractedData) :
    (convertSeparators t d).confidence_scores = d.confidence_scores := by
  unfold convertSeparators
  split
  · exact confs_reparse_fold _ _
  · rfl

/-- The currency default keeps the confidence map. -/
theorem confs_defaultCurrency (t : Template) (d : ExtractedData) :
    (defaultCurrency t d).confidence_scores = d.confidence_scores := by
  unfold defaultCurrency
  split <;> rfl

/-- The amount derivation keeps the confidence map. -/
theorem confs_deriveMissingAmounts (d : ExtractedData) :
    (deriveMissingAmounts d).confidence_scores = d.confidence_scores := by
  unfold deriveMissingAmounts
  split_ifs <;> (repeat' split) <;> rfl

/-- Post-processing never touches the confidence map. -/
theorem confs_postProcess (t : Template) (d : ExtractedData) :
    (postProcessData t d).confidence_scores = d.confidence_scores := by
  unfold postProcessData
  rw [confs_deriveMissingAmounts, confs_defaultCurrency, confs_convertSeparators]

/-- Transport of one attribute through the separator-conversion fold
when that attribute is falsy: its own pass is a no-op and the other
passes touch other attributes. -/
theorem getF_reparse_fold_falsy (l : List String) (d : ExtractedData) (k : String)
    (h : truthyField (getF d k) = false) :
    getF (l.foldl reparseAmountField d) k = getF d k := by
  induction l generalizing d with
  | nil => rfl
  | cons f rest ih =>
    rw [List.foldl_cons]
    by_cases hfk : f = k
    · subst hfk
      rw [reparseAmountField_noop_of_falsy d f h]
      exact ih d h
    · have h2 : truthyField (getF (reparseAmountField d f) k) = false := by
        rw [getF_reparse_other d f k hfk]; exact h
      rw [ih _ h2, getF_reparse_other d f k hfk]

/-- The separator conversion is the identity when none of the three
amount attributes holds a nonempty string. -/
theorem convertSeparators_noop (t : Template) (d : ExtractedData)
    (h : ∀ f ∈ (["total_amount", "vat_amount", "net_amount"] : List String),
      ∀ s, getF d f = some (.text s) → s = "") :
    convertSeparators t d = d := by
  unfold convertSeparators
  split
  · simp only [List.foldl_cons, List.foldl_nil]
    rw [reparseAmountField_noop d "total_amount" (h _ (by simp)),
      reparseAmountField_noop d "vat_amount" (h _ (by simp)),
      reparseAmountField_noop d "net_amount" (h _ (by simp))]
  · rfl

/-- The currency default leaves every attribute but `currency`
unchanged. -/
theorem getF_defaultCurrency (t : Template) (d : ExtractedData) (k : String)
    (h : k ≠ "currency") :
    getF (defaultCurrency t d) k = getF d k := by
  unfold defaultCurrency
  split
  · exact getF_setF_other d "currency" k (.text t.currency) (fun hc => h hc.symm)
  · rfl

/-- Claim C2, counterexample.  With net 100, tax 21 and total 150 all
present, post-processing leaves the inconsistent triple untouched:
|net + tax − total| = 29 > 0.02 after reconciliation, and the engine has
no reconciliation-warning mechanism at all. -/
theorem C2_counterexample :
    getF (postProcessData { template_id := "tc2", name := "C2" }
        { fields := [("net_amount", .num 100), ("vat_amount", .num 21),
                     ("total_amount", .num 150)] }) "net_amount" = some (.num 100) ∧
    getF (postProcessData { template_id := "tc2", name := "C2" }
        { fields := [("net_amount", .num 100), ("vat_amount", .num 21),
                     ("total_amount", .num 150)] }) "vat_amount" = some (.num 21) ∧
    getF (postProcessData { template_id := "tc2", name := "C2" }
        { fields := [("net_amount", .num 100), ("vat_amount", .num 21),
                     ("total_amount", .num 150)] }) "total_amount" = some (.num 150) ∧
    ¬ |(100 : ℚ) + 21 - 150| ≤ 2/100 := by
  have habs : |(100 : ℚ) + 21 - 150| = 29 := by
    rw [show (100 : ℚ) + 21 - 150 = -29 by norm_num, abs_neg]
    exact abs_of_pos (by norm_num)
  refine ⟨?_, ?_, ?_, by rw [habs]; norm_num⟩ <;>
    simp [postProcessData, deriveMissingAmounts, defaultCurrency, convertSeparators,
      reparseAmountField, getF, setF, truthyField, List.find?]

/-- Claim C2, amended.  Reconciliation derives the missing third
quantity only in the two cases the code implements — net from a present
total and tax, and total from a present net and tax — and in those cases
the triple satisfies net + tax − total = 0 (so certainly
|net + tax − total| ≤ 0.02) afterwards; when all three quantities are
already present they are left unchanged, no consistency check runs and
no warning exists, so the residual may be arbitrarily large. -/
theorem C2_reconciliation (t : Template) (d : ExtractedData) (b : ℚ)
    (hvat : getF d "vat_amount" = some (.num b)) (hb : b ≠ 0) :
    (∀ a, getF d "total_amount" = some (.num a) → a ≠ 0 →
      truthyField (getF d "net_amount") = false →
      ∃ n v tot : ℚ,
        getF (postProcessData t d) "net_amount" = some (.num n) ∧
        getF (postProcessData t d) "vat_amount" = some (.num v) ∧
        getF (postProcessData t d) "total_amount" = some (.num tot) ∧
        |n + v - tot| ≤ 2/100) ∧
    (∀ a, getF d "net_amount" = some (.num a) → a ≠ 0 →
      truthyField (getF d "total_amount") = false →
      ∃ n v tot : ℚ,
        getF (postProcessData t d) "net_amount" = some (.num n) ∧
        getF (postProcessData t d) "vat_amount" = some (.num v) ∧
        getF (postProcessData t d) "total_amount" = some (.num tot) ∧
        |n + v - tot| ≤ 2/100) := by
  constructor
  · intro a htot ha hnet
    have hnotext : ∀ f ∈ (["total_amount", "vat_amount", "net_amount"] : List String),
        ∀ s, getF d f = some (.text s) → s = "" := by
      intro f hf s hs
      simp only [List.mem_cons, List.not_mem_nil, or_false] at hf
      rcases hf with rfl | rfl | rfl
      · rw [htot] at hs; simp at hs
      · rw [hvat] at hs; simp at hs
      · rw [hs] at hnet; simpa [truthyField] using hnet
    have hconv := convertSeparators_noop t d hnotext
    have htot2 : getF (defaultCurrency t (convertSeparators t d)) "total_amount"
        = some (.num a) := by
      rw [hconv, getF_defaultCurrency t d _ (by decide)]; exact htot
    have hvat2 : getF (defaultCurrency t (convertSeparators t d)) "vat_amount"
        = some (.num b) := by
      rw [hconv, getF_defaultCurrency t d _ (by decide)]; exact hvat
    have hnet2 : truthyField (getF (defaultCurrency t (convertSeparators t d)) "net_amount")
        = false := by
      rw [hconv, getF_defaultCurrency t d _ (by decide)]; exact hnet
    have hcond : truthyField (some (FieldValue.num a)) = true ∧
        truthyField (some (FieldValue.num b)) = true ∧
        ¬ truthyField (getF (defaultCurrency t (convertSeparators t d)) "net_amount") = true := by
      refine ⟨by simp [truthyField, ha], by simp [truthyField, hb], by simp [hnet2]⟩
    refine ⟨a - b, b, a, ?_, ?_, ?_, by norm_num⟩ <;>
      · unfold postProcessData deriveMissingAmounts
        rw [htot2, hvat2, if_pos hcond]
        first
          | exact getF_setF_same _ _ _
          | (rw [getF_setF_other _ _ _ _ (by decide)]; assumption)
  · intro a hnet ha htot
    have hnotext : ∀ f ∈ (["total_amount", "vat_amount", "net_amount"] : List String),
        ∀ s, getF d f = some (.text s) → s = "" := by
      intro f hf s hs
      simp only [List.mem_cons, List.not_mem_nil, or_false] at hf
      rcases hf with rfl | rfl | rfl
      · rw [hs] at htot; simpa [truthyField] using htot
      · rw [hvat] at hs; simp at hs
      · rw [hnet] at hs; simp at hs
    have hconv := convertSeparators_noop t d hnotext
    have hnet2 : getF (defaultCurrency t (convertSeparators t d)) "net_amount"
        = some (.num a) := by
      rw [hconv, getF_defaultCurrency t d _ (by decide)]; exact hnet
    have hvat2 : getF (defaultCurrency t (convertSeparators t d)) "vat_amount"
        = some (.num b) := by
      rw [hconv, getF_defaultCurrency t d _ (by decide)]; exact hvat
    have htot2 : truthyField (getF (defaultCurrency t (convertSeparators t d)) "total_amount")
        = false := by
      rw [hconv, getF_defaultCurrency t d _ (by decide)]; exact htot
    have hcond1 : ¬ (truthyField (getF (defaultCurrency t (convertSeparators t d))
          "total_amount") = true ∧
        truthyField (getF (defaultCurrency t (convertSeparators t d)) "vat_amount") = true ∧
        ¬ truthyField (getF (defaultCurrency t (convertSeparators t d)) "net_amount") = true) := by
      intro hc
      rw [htot2] at hc
      simp at hc
    have hcond2 : truthyField (getF (defaultCurrency t (convertSeparators t d))
          "net_amount") = true ∧
        truthyField (getF (defaultCurrency t (convertSeparators t d)) "vat_amount") = true ∧
        ¬ truthyField (getF (defaultCurrency t (convertSeparators t d)) "total_amount") = true := by
      refine ⟨by rw [hnet2]; simp [truthyField, ha], by rw [hvat2]; simp [truthyField, hb],
        by simp [htot2]⟩
    refine ⟨a, b, a + b, ?_, ?_, ?_, by norm_num⟩ <;>
      · unfold postProcessData deriveMissingAmounts
        rw [if_neg hcond1, if_pos hcond2, hnet2, hvat2]
        first
          | exact getF_setF_same _ _ _
          | (rw [getF_setF_other _ _ _ _ (by decide)]; assumption)

/-- Record with tax 21 and total 121 known and net absent, for the C2
witness. -/
def c2WitnessData : ExtractedData :=
  { fields := [("vat_amount", .num 21), ("total_amount", .num 121)] }

/-- Template used by the C2/C4 witnesses. -/
def cwTemplate : Template := { template_id := "tcw", name := "CW" }

/-- Witness for C2: from total 121 and tax 21 with net missing,
post-processing yields a triple with net + tax − total = 0. -/
theorem C2_witness :
    (getF c2WitnessData "vat_amount" = some (.num 21) ∧ (21 : ℚ) ≠ 0 ∧
     getF c2WitnessData "total_amount" = some (.num 121) ∧ (121 : ℚ) ≠ 0 ∧
     truthyField (getF c2WitnessData "net_amount") = false) ∧
    (∃ n v tot : ℚ,
      getF (postProcessData cwTemplate c2WitnessData) "net_amount" = some (.num n) ∧
      getF (postProcessData cwTemplate c2WitnessData) "vat_amount" = some (.num v) ∧
      getF (postProcessData cwTemplate c2WitnessData) "total_amount" = some (.num tot) ∧
      |n + v - tot| ≤ 2/100) :=
  ⟨⟨by simp [c2WitnessData, getF, List.find?], by norm_num,
    by simp [c2WitnessData, getF, List.find?], by norm_num,
    by simp [c2WitnessData, getF, List.find?, truthyField]⟩,
   (C2_reconciliation cwTemplate c2WitnessData 21
      (by simp [c2WitnessData, getF, List.find?]) (by norm_num)).1 121
      (by simp [c2WitnessData, getF, List.find?]) (by norm_num)
      (by simp [c2WitnessData, getF, List.find?, truthyField])⟩

/-- Line items for the C4 counterexample, summing to 121. -/
def c4Items : List LineItemInput :=
  [{ description := some "a", quantity := some 1, unit_price := some 50,
     total_amount := some 50 },
   { description := some "b", quantity := some 1, unit_price := some 71,
     total_amount := some 71 }]

/-- Claim C4, counterexample.  With net, tax and total all missing but
line items summing to 121 present, reconciliation does not derive the
total from the line items: the record's total stays absent. -/
theorem C4_counterexample :
    getF (applyTemplateFields trivRe { template_id := "tc4", name := "C4" } "" c4Items)
      "total_amount" = none ∧
    (c4Items.map fun it => it.total_amount.getD 0).sum = (121 : ℚ) := by
  constructor
  · simp [applyTemplateFields, applyRuleStep, postProcessData, deriveMissingAmounts,
      defaultCurrency, convertSeparators, reparseAmountField, getF, setF, truthyField,
      List.find?]
  · simp [c4Items]
    norm_num

/-- Claim C4, amended.  When the extracted total is missing,
reconciliation derives total = net + tax only when both net and tax are
present and nonzero (e.g. net 100 and tax 21 yield total 121); in every
other case — in particular when only line items are available — the
total remains missing: there is no line-item fallback in
post-processing. -/
theorem C4_total_derivation (t : Template) (d : ExtractedData) :
    (∀ a b : ℚ, getF d "net_amount" = some (.num a) → a ≠ 0 →
      getF d "vat_amount" = some (.num b) → b ≠ 0 →
      truthyField (getF d "total_amount") = false →
      getF (postProcessData t d) "total_amount" = some (.num (a + b))) ∧
    (truthyField (getF d "total_amount") = false →
      ¬ (truthyField (getF d "net_amount") = true ∧
         truthyField (getF d "vat_amount") = true) →
      getF (postProcessData t d) "total_amount" = getF d "total_amount") := by
  constructor
  · intro a b hnet ha hvat hb htot
    have hnotext : ∀ f ∈ (["total_amount", "vat_amount", "net_amount"] : List String),
        ∀ s, getF d f = some (.text s) → s = "" := by
      intro f hf s hs
      simp only [List.mem_cons, List.not_mem_nil, or_false] at hf
      rcases hf with rfl | rfl | rfl
      · rw [hs] at htot; simpa [truthyField] using htot
      · rw [hvat] at hs; simp at hs
      · rw [hnet] at hs; simp at hs
    have hconv := convertSeparators_noop t d hnotext
    have hnet2 : getF (defaultCurrency t (convertSeparators t d)) "net_amount"
        = some (.num a) := by
      rw [hconv, getF_defaultCurrency t d _ (by decide)]; exact hnet
    have hvat2 : getF (defaultCurrency t (convertSeparators t d)) "vat_amount"
        = some (.num b) := by
      rw [hconv, getF_defaultCurrency t d _ (by decide)]; exact hvat
    have htot2 : truthyField (getF (defaultCurrency t (convertSeparators t d)) "total_amount")
        = false := by
      rw [hconv, getF_defaultCurrency t d _ (by decide)]; exact htot
    have hcond1 : ¬ (truthyField (getF (defaultCurrency t (convertSeparators t d))
          "total_amount") = true ∧
        truthyField (getF (defaultCurrency t (convertSeparators t d)) "vat_amount") = true ∧
        ¬ truthyField (getF (defaultCurrency t (convertSeparators t d)) "net_amount") = true) := by
      intro hc
      rw [htot2] at hc
      simp at hc
    have hcond2 : truthyField (getF (defaultCurrency t (convertSeparators t d))
          "net_amount") = true ∧
        truthyField (getF (defaultCurrency t (convertSeparators t d)) "vat_amount") = true ∧
        ¬ truthyField (getF (defaultCurrency t (convertSeparators t d)) "total_amount") = true := by
      refine ⟨by rw [hnet2]; simp [truthyField, ha], by rw [hvat2]; simp [truthyField, hb],
        by simp [htot2]⟩
    unfold postProcessData deriveMissingAmounts
    rw [if_neg hcond1, if_pos hcond2, hnet2, hvat2]
    exact getF_setF_same _ _ _
  · intro htot hnv
    unfold postProcessData
    have htot1 : getF (convertSeparators t d) "total_amount" = getF d "total_amount" := by
      unfold convertSeparators
      split
      · exact getF_reparse_fold_falsy _ d _ htot
      · rfl
    have htot2 : getF (defaultCurrency t (convertSeparators t d)) "total_amount"
        = getF d "total_amount" := by
      rw [getF_defaultCurrency _ _ _ (by decide)]; exact htot1
    have hfalsy2 : truthyField (getF (defaultCurrency t (convertSeparators t d)) "total_amount")
        = false := by rw [htot2]; exact htot
    have hnv2 : ¬ (truthyField (getF (defaultCurrency t (convertSeparators t d)) "net_amount")
          = true ∧
        truthyField (getF (defaultCurrency t (convertSeparators t d)) "vat_amount") = true) := by
      intro hcontra
      apply hnv
      rcases hcontra with ⟨hn2, hv2⟩
      constructor
      · by_contra hn
        have hnf : truthyField (getF d "net_amount") = false := by
          cases hh : truthyField (getF d "net_amount")
          · rfl
          · exact absurd hh hn
        have : getF (defaultCurrency t (convertSeparators t d)) "net_amount"
            = getF d "net_amount" := by
          rw [getF_defaultCurrency _ _ _ (by decide)]
          unfold convertSeparators
          split
          · exact getF_reparse_fold_falsy _ d _ hnf
          · rfl
        rw [this, hnf] at hn2
        exact absurd hn2 (by simp)
      · by_contra hv
        have hvf : truthyField (getF d "vat_amount") = false := by
          cases hh : truthyField (getF d "vat_amount")
          · rfl
          · exact absurd hh hv
        have : getF (defaultCurrency t (convertSeparators t d)) "vat_amount"
            = getF d "vat_amount" := by
          rw [getF_defaultCurrency _ _ _ (by decide)]
          unfold convertSeparators
          split
          · exact getF_reparse_fold_falsy _ d _ hvf
          · rfl
        rw [this, hvf] at hv2
        exact absurd hv2 (by simp)
    unfold deriveMissingAmounts
    rw [if_neg, if_neg]
    · exact htot2
    · intro hcond
      exact hnv2 ⟨hcond.1, hcond.2.1⟩
    · intro hcond
      rw [hfalsy2] at hcond
      simpa using hcond.1

/-- Record with net 100 and tax 21 known and total absent, for the C4
witness. -/
def c4WitnessData : ExtractedData :=
  { fields := [("net_amount", .num 100), ("vat_amount", .num 21)] }

/-- Witness for C4: net 100 and tax 21 with total missing derive total
121. -/
theorem C4_witness :
    (getF c4WitnessData "net_amount" = some (.num 100) ∧ (100 : ℚ) ≠ 0 ∧
     getF c4WitnessData "vat_amount" = some (.num 21) ∧ (21 : ℚ) ≠ 0 ∧
     truthyField (getF c4WitnessData "total_amount") = false) ∧
    getF (postProcessData cwTemplate c4WitnessData) "total_amount" = some (.num (100 + 21)) :=
  ⟨⟨by simp [c4WitnessData, getF, List.find?], by norm_num,
    by simp [c4WitnessData, getF, List.find?], by norm_num,
    by simp [c4WitnessData, getF, List.find?, truthyField]⟩,
   (C4_total_derivation cwTemplate c4WitnessData).1 100 21
      (by simp [c4WitnessData, getF, List.find?]) (by norm_num)
      (by simp [c4WitnessData, getF, List.find?]) (by norm_num)
      (by simp [c4WitnessData, getF, List.find?, truthyField])⟩

/-! ## Claims C9 and C1 — document assembly -/

/-- Adding a line item only appends to the lines. -/
theorem addLineItem_frame (inv : UBLInvoice) (desc : String) (q up : ℚ)
    (vr : Option ℚ) (uc : String) :
    (addLineItem inv desc q up vr uc).tax_total = inv.tax_total ∧
    (addLineItem inv desc q up vr uc).legal_monetary_total = inv.legal_monetary_total ∧
    (addLineItem inv desc q up vr uc).document_currency_code = inv.document_currency_code :=
  ⟨rfl, rfl, rfl⟩

/-- The line-item loop only appends to the lines. -/
theorem addLineItems_frame (cfg : ExporterCfg) (items : List LineItemInput)
    (inv : UBLInvoice) :
    (addLineItems cfg inv items).tax_total = inv.tax_total ∧
    (addLineItems cfg inv items).legal_monetary_total = inv.legal_monetary_total ∧
    (addLineItems cfg inv items).document_currency_code = inv.document_currency_code := by
  induction items generalizing inv with
  | nil => exact ⟨rfl, rfl, rfl⟩
  | cons it rest ih =>
    unfold addLineItems at ih ⊢
    rw [List.foldl_cons]
    exact ih _

/-- The whole line stage only appends to the lines. -/
theorem assembleLines_frame (cfg : ExporterCfg) (d : InvoiceData) (inv : UBLInvoice) :
    (assembleLines cfg d inv).tax_total = inv.tax_total ∧
    (assembleLines cfg d inv).legal_monetary_total = inv.legal_monetary_total ∧
    (assembleLines cfg d inv).document_currency_code = inv.document_currency_code := by
  unfold assembleLines
  split
  · unfold addSummaryLineItem
    exact ⟨(addLineItems_frame cfg d.line_items inv).1,
      (addLineItems_frame cfg d.line_items inv).2.1,
      (addLineItems_frame cfg d.line_items inv).2.2⟩
  · exact addLineItems_frame cfg d.line_items inv

/-- Totals computation: either there are no lines and the invoice is
untouched, or the legal monetary total is freshly computed with payable
= tax-inclusive = line-extension-sum + total tax, and the document's
tax-subtotal sum equals that total tax (given the empty initial
`tax_total` of the pipeline). -/
theorem calculateTotals_spec (inv : UBLInvoice) (htt : inv.tax_total = []) :
    (calculateTotals inv = inv) ∨
    ∃ L, (calculateTotals inv).legal_monetary_total = some L ∧
      L.payable_amount = L.tax_inclusive_amount ∧
      L.payable_amount = L.line_extension_amount + docTaxSum (calculateTotals inv) ∧
      L.line_extension_amount = lineExtSum inv := by
  unfold calculateTotals
  split
  · exact Or.inl rfl
  · right
    refine ⟨_, rfl, rfl, ?_, rfl⟩
    show lineExtSum inv + totalTaxOf inv = lineExtSum inv + docTaxSum _
    congr 1
    unfold docTaxSum
    split
    · simp only [taxSubtotalsOf, totalTaxOf, List.map_cons, List.map_nil, List.map_map,
        List.sum_cons, List.sum_nil, add_zero]
      rfl
    · rename_i hsub
      rw [not_not] at hsub
      have hg : taxGroups inv = [] := by
        by_contra hgne
        cases hge : taxGroups inv with
        | nil => exact hgne hge
        | cons g gs =>
          apply hsub ▸ (by simp [taxSubtotalsOf, hge] : taxSubtotalsOf inv ≠ [])
          rfl
      simp [htt, totalTaxOf, hg]

/-- Total validation either leaves the invoice unchanged or overrides
the two totals with the extracted amount, and only under the adjustment
condition. -/
theorem validateTotals_cases (inv : UBLInvoice) (d : InvoiceData) :
    validateTotals inv d = inv ∨
    ∃ L e, inv.legal_monetary_total = some L ∧ d.total_amount = some e ∧
      1/100 < |L.payable_amount - e| ∧ |L.payable_amount - e| ≤ 1 ∧
      validateTotals inv d = overrideTotals inv L e := by
  cases hL : inv.legal_monetary_total with
  | none =>
    left
    simp only [validateTotals, hL]
  | some L =>
    cases he : d.total_amount with
    | none =>
      left
      simp only [validateTotals, hL, he]
    | some e =>
      simp only [validateTotals, hL, he]
      split_ifs with h1 h2 h3
      · right
        refine ⟨L, e, rfl, rfl, h2, h3, ?_⟩
        unfold overrideTotals
        rfl
      · left; rfl
      · left; rfl
      · left; rfl

/-- The override never touches lines or tax totals. -/
theorem overrideTotals_frame (inv : UBLInvoice) (L : UBLLegalMonetaryTotal) (e : ℚ) :
    (overrideTotals inv L e).tax_total = inv.tax_total ∧
    (overrideTotals inv L e).invoice_lines = inv.invoice_lines ∧
    (overrideTotals inv L e).legal_monetary_total =
      some { L with payable_amount := e, tax_inclusive_amount := e } :=
  ⟨rfl, rfl, rfl⟩

/-- Claim C9, counterexample.  On an input with no line items and no
extracted total — the claim's paradigmatic AssemblyFault case — assembly
completes normally and returns a document with no lines and no monetary
total; no fault class exists in the exporter and nothing aborts. -/
theorem C9_counterexample :
    (createUblInvoice {} {}).invoice_lines = [] ∧
    (createUblInvoice {} {}).legal_monetary_total = none ∧
    (createUblInvoice {} {}).document_currency_code = "EUR" :=
  ⟨rfl, rfl, rfl⟩

/-- Claim C9, amended.  Document assembly never raises: it is a total
function of its input.  On input that cannot yield a minimally valid
document (no line items and no truthy total) it silently produces a
document with no invoice lines and no legal monetary total, and the
currency always falls back to the exporter default, so a missing
currency never occurs; all failure handling is local recovery. -/
theorem C9_no_assembly_fault (cfg : ExporterCfg) (d : InvoiceData)
    (hitems : d.line_items = []) (htot : truthyQ d.total_amount = false) :
    (createUblInvoice cfg d).invoice_lines = [] ∧
    (createUblInvoice cfg d).legal_monetary_total = none ∧
    (createUblInvoice cfg d).document_currency_code =
      pyOrStr d.currency cfg.default_currency ∧
    (cfg.default_currency ≠ "" →
      (createUblInvoice cfg d).document_currency_code ≠ "") := by
  have hstage : assembleLines cfg d (baseInvoice cfg d) = baseInvoice cfg d := by
    unfold assembleLines addLineItems
    rw [hitems]
    simp [htot, List.foldl_nil]
  have hcalc : calculateTotals (baseInvoice cfg d) = baseInvoice cfg d := by
    unfold calculateTotals
    simp [baseInvoice]
  have hval : validateTotals (baseInvoice cfg d) d = baseInvoice cfg d := by
    unfold validateTotals baseInvoice
    rfl
  unfold createUblInvoice
  rw [hstage, hcalc, hval]
  refine ⟨rfl, rfl, rfl, ?_⟩
  intro hdef
  unfold baseInvoice pyOrStr
  cases d.currency with
  | none => exact hdef
  | some s =>
    by_cases hs : s = "" <;> simp [hs, hdef]

/-- Witness for C9 with a non-default exporter currency and an input
carrying only a zero (falsy) total. -/
theorem C9_witness :
    (({ total_amount := some 0 } : InvoiceData).line_items = [] ∧
     truthyQ ({ total_amount := some 0 } : InvoiceData).total_amount = false) ∧
    ((createUblInvoice { default_currency := "USD" } { total_amount := some 0 }).invoice_lines
        = [] ∧
     (createUblInvoice { default_currency := "USD" }
        { total_amount := some 0 }).legal_monetary_total = none ∧
     (createUblInvoice { default_currency := "USD" }
        { total_amount := some 0 }).document_currency_code =
        pyOrStr ({ total_amount := some 0 } : InvoiceData).currency "USD" ∧
     (("USD" : String) ≠ "" →
      (createUblInvoice { default_currency := "USD" }
        { total_amount := some 0 }).document_currency_code ≠ "")) :=
  ⟨⟨rfl, by simp [truthyQ]⟩,
    C9_no_assembly_fault { default_currency := "USD" } { total_amount := some 0 } rfl
      (by simp [truthyQ])⟩

/-- Claim C1, amended.  For every assembled document with a legal
monetary total, the payable amount always equals the tax-inclusive
amount; both equal line_extension_amount + Σ tax-subtotal tax amounts
exactly, unless the extracted-total adjustment fired, in which case both
equal the extracted total, which differs from that sum by more than 0.01
and at most 1.00.  No rounding is applied anywhere in assembly. -/
theorem C1_document_totals (cfg : ExporterCfg) (d : InvoiceData)
    (L : UBLLegalMonetaryTotal)
    (hL : (createUblInvoice cfg d).legal_monetary_total = some L) :
    L.payable_amount = L.tax_inclusive_amount ∧
    (L.payable_amount = L.line_extension_amount + docTaxSum (createUblInvoice cfg d) ∨
     ∃ e, d.total_amount = some e ∧ L.payable_amount = e ∧
       1/100 < |L.line_extension_amount + docTaxSum (createUblInvoice cfg d) - e| ∧
       |L.line_extension_amount + docTaxSum (createUblInvoice cfg d) - e| ≤ 1) := by
  have hbase_tt : (assembleLines cfg d (baseInvoice cfg d)).tax_total = [] :=
    (assembleLines_frame cfg d (baseInvoice cfg d)).1
  have hcalc := calculateTotals_spec (assembleLines cfg d (baseInvoice cfg d)) hbase_tt
  have hval := validateTotals_cases (calculateTotals (assembleLines cfg d (baseInvoice cfg d))) d
  have hcu : createUblInvoice cfg d =
      validateTotals (calculateTotals (assembleLines cfg d (baseInvoice cfg d))) d := rfl
  rcases hval with hsame | ⟨L2, e, hL2, he, hgt, hle, hover⟩
  · -- validation left the invoice unchanged
    rcases hcalc with hid | ⟨L1, hL1, hpt, hps, _⟩
    · -- no lines: the monetary total is still the stage's (absent) one
      rw [hcu, hsame, hid] at hL
      rw [(assembleLines_frame cfg d (baseInvoice cfg d)).2.1] at hL
      exact absurd hL (by simp [baseInvoice])
    · rw [hcu, hsame] at hL ⊢
      rw [hL1] at hL
      cases Option.some.inj hL
      exact ⟨hpt, Or.inl hps⟩
  · -- validation overrode the totals
    rcases hcalc with hid | ⟨L1, hL1, hpt, hps, _⟩
    · rw [hid] at hL2
      rw [(assembleLines_frame cfg d (baseInvoice cfg d)).2.1] at hL2
      exact absurd hL2 (by simp [baseInvoice])
    · rw [hcu, hover] at hL ⊢
      rw [(overrideTotals_frame _ _ _).2.2] at hL
      cases Option.some.inj hL
      have hL12 : L1 = L2 := Option.some.inj (hL1.symm.trans hL2)
      subst hL12
      refine ⟨rfl, Or.inr ⟨e, he, rfl, ?_, ?_⟩⟩
      · have hd : docTaxSum (overrideTotals (calculateTotals
            (assembleLines cfg d (baseInvoice cfg d))) L1 e) =
            docTaxSum (calculateTotals (assembleLines cfg d (baseInvoice cfg d))) := by
          unfold docTaxSum
          rw [(overrideTotals_frame _ _ _).1]
        rw [hd]
        show (1:ℚ)/100 < |L1.line_extension_amount + docTaxSum _ - e|
        rw [← hps]
        exact hgt
      · have hd : docTaxSum (overrideTotals (calculateTotals
            (assembleLines cfg d (baseInvoice cfg d))) L1 e) =
            docTaxSum (calculateTotals (assembleLines cfg d (baseInvoice cfg d))) := by
          unfold docTaxSum
          rw [(overrideTotals_frame _ _ _).1]
        rw [hd]
        show |L1.line_extension_amount + docTaxSum _ - e| ≤ 1
        rw [← hps]
        exact hle

/-- Line item: one unit at price 100 with 21% VAT. -/
def c1Item : LineItemInput :=
  { description := some "A", quantity := some 1, unit_price := some 100, vat_rate := some 21 }

/-- Assembler input with extracted total 121.50 and the 100 + 21% line. -/
def c1Data : InvoiceData := { total_amount := some (243/2), line_items := [c1Item] }

/-- The invoice line the pipeline builds from `c1Item`, over a given
currency. -/
def c1Line (cur : String) : UBLLineItem :=
  { line_id := "1"
    invoiced_quantity := 1
    line_extension_amount := 100
    currency_code := cur
    unit_code := "EA"
    item_name := some "A"
    item_description := some "A"
    price := some { price_amount := 100, currency_code := cur, base_quantity := 1, unit_code := "EA" }
    tax_category := some { percent := some 21 } }

/-- The tax total block the pipeline computes for the 100 + 21% line. -/
def c1TaxTotal (cur : String) : UBLTaxTotal :=
  { tax_amount := 21
    currency_code := cur
    tax_subtotals :=
      [{ taxable_amount := 100, tax_amount := 21, currency_code := cur,
         tax_category := some { percent := some 21 } }] }

/-- The legal monetary total the pipeline computes for the 100 + 21%
line. -/
def c1LMT (cur : String) : UBLLegalMonetaryTotal :=
  { line_extension_amount := 100
    tax_exclusive_amount := 100
    tax_inclusive_amount := 121
    payable_amount := 121
    currency_code := cur }

/-- The computed (pre-validation) invoice for the 100 + 21% line. -/
def c1Computed (idv cur : String) : UBLInvoice :=
  { invoice_id := idv
    document_currency_code := cur
    tax_total := [c1TaxTotal cur]
    legal_monetary_total := some (c1LMT cur)
    invoice_lines := [c1Line cur] }

/-- Totals pipeline evaluated on the concrete 100 + 21% input. -/
theorem c1_pipeline_eval (dd : InvoiceData) (hitems : dd.line_items = [c1Item]) :
    calculateTotals (assembleLines {} dd (baseInvoice {} dd)) =
      c1Computed (dd.invoice_number.getD "UNKNOWN") (pyOrStr dd.currency "EUR") := by
  have hdiv : decDiv28 21 100 = 21/100 := by
    simp [decDiv28, quotExp10, digitLen, digitLenAux, roundHalfEvenNat] <;> norm_num
  have hassemble : assembleLines {} dd (baseInvoice {} dd) =
      { baseInvoice {} dd with invoice_lines := [c1Line (pyOrStr dd.currency "EUR")] } := by
    unfold assembleLines addLineItems
    rw [hitems]
    simp [addLineItem, c1Item, c1Line, determineVatRate, baseInvoice]
    norm_num
    decide
  rw [hassemble]
  unfold calculateTotals
  simp only [baseInvoice, c1Line]
  norm_num [taxGroups, upsertGroup, lineTaxContribution, taxSubtotalsOf, totalTaxOf,
    lineExtSum, hdiv, c1Computed, c1Line, c1TaxTotal, c1LMT]

/-- Claim C1, counterexample.  For one 100 + 21% line with extracted
total 121.50, the adjustment step rewrites payable and tax-inclusive to
121.50 while the line-extension amount (100) and the tax-subtotal sum
(21) are untouched, so the claimed identity payable = line_extension +
Σ tax fails on the assembled document. -/
theorem C1_counterexample :
    ((createUblInvoice {} c1Data).legal_monetary_total.map (·.payable_amount)) = some (243/2) ∧
    ((createUblInvoice {} c1Data).legal_monetary_total.map (·.tax_inclusive_amount))
      = some (243/2) ∧
    ((createUblInvoice {} c1Data).legal_monetary_total.map (·.line_extension_amount))
      = some 100 ∧
    docTaxSum (createUblInvoice {} c1Data) = 21 ∧
    (243/2 : ℚ) ≠ 100 + 21 := by
  have hcu : createUblInvoice {} c1Data = validateTotals (c1Computed "UNKNOWN" "EUR") c1Data := by
    unfold createUblInvoice
    rw [c1_pipeline_eval c1Data rfl]
    rfl
  have habs : |(121 : ℚ) - 243/2| = 1/2 := by
    rw [show (121 : ℚ) - 243/2 = -(1/2) by norm_num, abs_neg]
    exact abs_of_pos (by norm_num)
  have hlmt : (c1Computed "UNKNOWN" "EUR").legal_monetary_total = some (c1LMT "EUR") := rfl
  have htot : c1Data.total_amount = some (243/2) := rfl
  have hp : (c1LMT "EUR").payable_amount = 121 := rfl
  have hval : validateTotals (c1Computed "UNKNOWN" "EUR") c1Data =
      overrideTotals (c1Computed "UNKNOWN" "EUR") (c1LMT "EUR") (243/2) := by
    simp only [validateTotals, hlmt, htot, hp, habs]
    norm_num [overrideTotals]
  rw [hcu, hval]
  refine ⟨rfl, rfl, rfl, ?_, by norm_num⟩
  show docTaxSum (overrideTotals (c1Computed "UNKNOWN" "EUR") (c1LMT "EUR") (243/2)) = 21
  unfold docTaxSum overrideTotals c1Computed c1TaxTotal
  simp

/-- Witness for C1 on the 100 + 21% line with no extracted total: the
assembled document's payable equals the tax-inclusive amount and equals
line-extension + Σ tax. -/
theorem C1_witness :
    ((createUblInvoice {} { line_items := [c1Item] }).legal_monetary_total
        = some (c1LMT "EUR")) ∧
    ((c1LMT "EUR").payable_amount = (c1LMT "EUR").tax_inclusive_amount ∧
     ((c1LMT "EUR").payable_amount = (c1LMT "EUR").line_extension_amount +
        docTaxSum (createUblInvoice {} { line_items := [c1Item] }) ∨
      ∃ e, ({ line_items := [c1Item] } : InvoiceData).total_amount = some e ∧
        (c1LMT "EUR").payable_amount = e ∧
        1/100 < |(c1LMT "EUR").line_extension_amount +
          docTaxSum (createUblInvoice {} { line_items := [c1Item] }) - e| ∧
        |(c1LMT "EUR").line_extension_amount +
          docTaxSum (createUblInvoice {} { line_items := [c1Item] }) - e| ≤ 1)) := by
  have hL : (createUblInvoice {} { line_items := [c1Item] }).legal_monetary_total
      = some (c1LMT "EUR") := by
    unfold createUblInvoice
    rw [c1_pipeline_eval { line_items := [c1Item] } rfl]
    rfl
  exact ⟨hL, C1_document_totals {} { line_items := [c1Item] } (c1LMT "EUR") hL⟩

/-! ## Claim C8 — confidence provenance of populated fields -/

/-- Membership through the stable priority insertion. -/
theorem mem_insertByPriority (x p : FieldPattern) (l : List FieldPattern) :
    p ∈ insertByPriority x l ↔ p = x ∨ p ∈ l := by
  induction l with
  | nil => simp [insertByPriority]
  | cons y ys ih =>
    simp only [insertByPriority]
    split_ifs
    · simp only [List.mem_cons, ih]
      tauto
    · simp only [List.mem_cons]

/-- The priority sort preserves membership. -/
theorem mem_sortPatternsDesc (p : FieldPattern) (l : List FieldPattern) :
    p ∈ sortPatternsDesc l ↔ p ∈ l := by
  induction l with
  | nil => simp [sortPatternsDesc]
  | cons y ys ih =>
    simp only [sortPatternsDesc, List.foldr_cons] at ih ⊢
    rw [mem_insertByPriority]
    simp [ih]

/-- The main pattern loop returns either its accumulator or the exact
output of one of the patterns. -/
theorem tryPatterns_provenance (re : PyRe) (text : String) (ps : List FieldPattern) :
    ∀ acc, tryPatterns re text ps acc = acc ∨
      ∃ p ∈ ps, tryPatterns re text ps acc = applyPattern re p text := by
  induction ps with
  | nil => intro acc; exact Or.inl rfl
  | cons p ps ih =>
    intro acc
    simp only [tryPatterns]
    split_ifs with h1 h2
    · exact Or.inr ⟨p, List.mem_cons_self p ps, rfl⟩
    · rcases ih (applyPattern re p text) with h | ⟨q, hq, he⟩
      · exact Or.inr ⟨p, List.mem_cons_self p ps, h⟩
      · exact Or.inr ⟨q, List.mem_cons_of_mem p hq, he⟩
    · rcases ih acc with h | ⟨q, hq, he⟩
      · exact Or.inl h
      · exact Or.inr ⟨q, List.mem_cons_of_mem p hq, he⟩

/-- The fallback loop returns either its accumulator or the exact output
of one of the fallback patterns. -/
theorem tryFallbacks_provenance (re : PyRe) (text : String) (ps : List FieldPattern) :
    ∀ acc, tryFallbacks re text ps acc = acc ∨
      ∃ p ∈ ps, tryFallbacks re text ps acc = applyPattern re p text := by
  induction ps with
  | nil => intro acc; exact Or.inl rfl
  | cons p ps ih =>
    intro acc
    simp only [tryFallbacks]
    split_ifs with h1
    · rcases ih (applyPattern re p text) with h | ⟨q, hq, he⟩
      · exact Or.inr ⟨p, List.mem_cons_self p ps, h⟩
      · exact Or.inr ⟨q, List.mem_cons_of_mem p hq, he⟩
    · rcases ih acc with h | ⟨q, hq, he⟩
      · exact Or.inl h
      · exact Or.inr ⟨q, List.mem_cons_of_mem p hq, he⟩

/-- The pattern/fallback stage of `_extract_field` returns either an
empty result or the exact output of one of the rule's patterns. -/
theorem extractFieldAcc_provenance (re : PyRe) (rule : ExtractionRule) (text : String) :
    (extractFieldAcc re rule text).1 = none ∨
    ∃ p, (p ∈ rule.patterns ∨ p ∈ rule.fallback_patterns) ∧
      extractFieldAcc re rule text = applyPattern re p text := by
  unfold extractFieldAcc
  split_ifs with h
  · rcases tryFallbacks_provenance re text rule.fallback_patterns
      (tryPatterns re text (sortPatternsDesc rule.patterns) (none, 0)) with he | ⟨q, hq, he⟩
    · rw [he]
      rcases tryPatterns_provenance re text (sortPatternsDesc rule.patterns) (none, 0) with
        h2 | ⟨q, hq, he2⟩
      · rw [h2]
        exact Or.inl rfl
      · exact Or.inr ⟨q, Or.inl ((mem_sortPatternsDesc q rule.patterns).mp hq), he2⟩
    · exact Or.inr ⟨q, Or.inr hq, he⟩
  · rcases tryPatterns_provenance re text (sortPatternsDesc rule.patterns) (none, 0) with
      h2 | ⟨q, hq, he2⟩
    · rw [h2]
      exact Or.inl rfl
    · exact Or.inr ⟨q, Or.inl ((mem_sortPatternsDesc q rule.patterns).mp hq), he2⟩

/-- Provenance of a returned field value's confidence: it is the
confidence output by one of the rule's main or fallback patterns, or
the fixed value 0.1 of the static default. -/
theorem extractField_provenance (re : PyRe) (rule : ExtractionRule) (text : String)
    (v : FieldValue) (c : ℚ) (h : extractField re rule text = (some v, c)) :
    (∃ p, (p ∈ rule.patterns ∨ p ∈ rule.fallback_patterns) ∧
      ∃ s, applyPattern re p text = (some s, c)) ∨
    (rule.default_value ≠ none ∧ c = 1/10) := by
  rcases hE : extractFieldRaw re rule text with ⟨o, c0⟩
  unfold extractField at h
  rw [hE] at h
  cases o with
  | none => simp at h
  | some s =>
    simp only [Prod.mk.injEq] at h
    obtain ⟨hv, rfl⟩ := h
    unfold extractFieldRaw at hE
    split_ifs at hE with h1
    · split at hE
      · rename_i d heq
        simp only [Prod.mk.injEq] at hE
        refine Or.inr ⟨?_, hE.2.symm⟩
        rw [heq]
        exact Option.some_ne_none d
      · rw [hE] at h1
        simp at h1
    · rcases extractFieldAcc_provenance re rule text with h2 | ⟨p, hp, he⟩
      · rw [hE] at h2
        simp at h2
      · refine Or.inl ⟨p, hp, s, ?_⟩
        rw [← he, hE]

/-- A rule whose extraction yields a value records exactly its
confidence for its field name. -/
theorem getConf_applyRuleStep_same (re : PyRe) (text : String) (d : ExtractedData)
    (rule : ExtractionRule) (v : FieldValue) (c : ℚ)
    (h : extractField re rule text = (some v, c)) :
    getConf (applyRuleStep re text d rule) rule.field_name = some c := by
  unfold applyRuleStep
  rw [h]
  simp [getConf, List.find?]

/-- A rule step leaves the confidence entries of other field names
unchanged. -/
theorem getConf_applyRuleStep_other (re : PyRe) (text : String) (d : ExtractedData)
    (rule : ExtractionRule) (k : String) (hk : rule.field_name ≠ k) :
    getConf (applyRuleStep re text d rule) k = getConf d k := by
  unfold applyRuleStep
  rcases hE : extractField re rule text with ⟨o, c0⟩
  cases o with
  | none => rfl
  | some fv => simp [getConf, List.find?, hk]

/-- The rule loop leaves the confidence entry of a field name carried by
none of its rules unchanged. -/
theorem getConf_rulesFold_not_mem (re : PyRe) (text : String)
    (rules : List ExtractionRule) (k : String)
    (hk : ∀ r ∈ rules, r.field_name ≠ k) :
    ∀ d, getConf (rules.foldl (applyRuleStep re text) d) k = getConf d k := by
  induction rules with
  | nil => intro d; rfl
  | cons r rs ih =>
    intro d
    simp only [List.foldl_cons]
    rw [ih (fun q hq => hk q (List.mem_cons_of_mem r hq)),
      getConf_applyRuleStep_other re text d r k (hk r (List.mem_cons_self r rs))]

/-- Through the whole rule loop, a rule with a distinct field name whose
extraction yields a value ends with exactly that confidence recorded. -/
theorem getConf_rulesFold_mem (re : PyRe) (text : String)
    (rules : List ExtractionRule) :
    ∀ rule ∈ rules, (rules.map (·.field_name)).Nodup →
      ∀ v c, extractField re rule text = (some v, c) →
      ∀ d, getConf (rules.foldl (applyRuleStep re text) d) rule.field_name = some c := by
  induction rules with
  | nil => intro rule h; exact absurd h (List.not_mem_nil rule)
  | cons r rs ih =>
    intro rule hmem hnd v c h d
    rw [List.map_cons, List.nodup_cons] at hnd
    simp only [List.foldl_cons]
    rcases List.mem_cons.mp hmem with rfl | hmem'
    · refine (getConf_rulesFold_not_mem re text rs rule.field_name ?_ _).trans
        (getConf_applyRuleStep_same re text d rule v c h)
      intro q hq he
      exact hnd.1 (List.mem_map.mpr ⟨q, hq, he⟩)
    · exact ih rule hmem' hnd.2 v c h _

/-- Claim C8, amended.  For every field populated by the field-extraction
loop of `apply_template` (rules with distinct field names), the field's
confidence entry equals the confidence returned by `_extract_field`, and
that confidence is the one output by a main or fallback pattern of the
rule, or the fixed value 0.1 when the value came from the rule's static
default; post-processing never touches the confidence map.  (Fields
populated by post-processing itself carry no confidence entry — see the
counterexample.) -/
theorem C8_field_confidence (re : PyRe) (t : Template) (text : String)
    (items : List LineItemInput) (rule : ExtractionRule)
    (hmem : rule ∈ t.extraction_rules)
    (hnd : (t.extraction_rules.map (·.field_name)).Nodup)
    (v : FieldValue) (c : ℚ) (h : extractField re rule text = (some v, c)) :
    getConf (applyTemplateFields re t text items) rule.field_name = some c ∧
    ((∃ p, (p ∈ rule.patterns ∨ p ∈ rule.fallback_patterns) ∧
       ∃ s, applyPattern re p text = (some s, c)) ∨
     (rule.default_value ≠ none ∧ c = 1/10)) := by
  constructor
  · have h1 := getConf_rulesFold_mem re text t.extraction_rules rule hmem hnd v c h
      { raw_text := text
        extraction_method := "template:" ++ t.template_id
        fields := []
        confidence_scores := []
        line_items := [] }
    simp only [applyTemplateFields, getConf] at h1 ⊢
    rw [confs_postProcess]
    exact h1
  · exact extractField_provenance re rule text v c h

/-- Rule used by the C8 witness: no patterns, a static default. -/
def c8Rule : ExtractionRule :=
  { field_name := "invoice_number", field_type := .text, patterns := [],
    default_value := some "X1" }

/-- Template used by the C8 witness. -/
def c8Template : Template :=
  { template_id := "tc8", name := "C8", extraction_rules := [c8Rule] }

/-- Claim C8, witness: on a single default-valued rule the populated
field's confidence entry is the fixed default confidence 0.1. -/
theorem C8_witness :
    c8Rule ∈ c8Template.extraction_rules ∧
    (c8Template.extraction_rules.map (·.field_name)).Nodup ∧
    extractField trivRe c8Rule "" = (some (.text "X1"), 1/10) ∧
    getConf (applyTemplateFields trivRe c8Template "" []) c8Rule.field_name =
      some (1/10) := by
  have hx : extractField trivRe c8Rule "" = (some (.text "X1"), 1/10) := by
    simp [extractField, extractFieldRaw, extractFieldAcc, tryPatterns, tryFallbacks,
      sortPatternsDesc, c8Rule, convertFieldType, vdxNormalize]
  refine ⟨List.mem_singleton.mpr rfl, by simp [c8Template], hx, ?_⟩
  exact (C8_field_confidence trivRe c8Template "" [] c8Rule
    (List.mem_singleton.mpr rfl) (by simp [c8Template]) (.text "X1") (1/10) hx).1

/-- Template used by the C8 counterexample: no extraction rules at all. -/
def c8xTemplate : Template := { template_id := "tc8x", name := "C8x" }

/-- Claim C8, counterexample.  Post-processing populates the currency
field from the template default without recording any confidence entry:
this populated field has no corresponding entry in the confidence map,
so the claimed invariant over every populated field fails. -/
theorem C8_counterexample :
    getF (applyTemplateFields trivRe c8xTemplate "" []) "currency" =
      some (.text "EUR") ∧
    getConf (applyTemplateFields trivRe c8xTemplate "" []) "currency" = none := by
  constructor <;>
    simp [applyTemplateFields, applyRuleStep, postProcessData, deriveMissingAmounts,
      defaultCurrency, convertSeparators, reparseAmountField, getF, getConf, setF,
      truthyField, List.find?, c8xTemplate]

/-! ## Claim C7 — template selection -/

/-- A successful supplier match always carries a returned confidence
strictly above 0.5: the flag is `best > 0.5` and the returned value is
`min best 1`. -/
theorem matchSupplier_matched (re : PyRe) (t : Template) (text : String)
    (h : (matchSupplier re t text).1 = true) :
    1/2 < (matchSupplier re t text).2 := by
  simp only [matchSupplier] at h ⊢
  rw [decide_eq_true_eq] at h
  exact lt_min h (by norm_num)

/-- Soundness invariant of the candidate fold: the accumulator is the
initial empty state or records a non-generic catalog member whose
supplier match succeeded, together with its exact confidence. -/
theorem foldl_bestStep_accOK (re : PyRe) (text : String) (cands : List Template) :
    ∀ l : List Template, (∀ t ∈ l, t ∈ cands) →
    ∀ acc : Option Template × ℚ,
      (acc = (none, 0) ∨
        ∃ u, acc.1 = some u ∧ u ∈ cands ∧ u.template_id ≠ "generic_nl" ∧
          (matchSupplier re u text).1 = true ∧ acc.2 = (matchSupplier re u text).2) →
      (l.foldl (bestStep re text) acc = (none, 0) ∨
        ∃ u, (l.foldl (bestStep re text) acc).1 = some u ∧ u ∈ cands ∧
          u.template_id ≠ "generic_nl" ∧ (matchSupplier re u text).1 = true ∧
          (l.foldl (bestStep re text) acc).2 = (matchSupplier re u text).2) := by
  intro l
  induction l with
  | nil => intro _ acc h; exact h
  | cons t ts ih =>
    intro hl acc h
    simp only [List.foldl_cons]
    refine ih (fun u hu => hl u (List.mem_cons_of_mem t hu)) (bestStep re text acc t) ?_
    unfold bestStep
    split_ifs with hgen hcond
    · exact h
    · exact Or.inr ⟨t, rfl, hl t (List.mem_cons_self t ts), hgen, hcond.1, rfl⟩
    · exact h

/-- The candidate fold never decreases the running best confidence. -/
theorem foldl_bestStep_mono (re : PyRe) (text : String) (l : List Template) :
    ∀ acc : Option Template × ℚ, acc.2 ≤ (l.foldl (bestStep re text) acc).2 := by
  induction l with
  | nil => intro acc; exact le_refl acc.2
  | cons t ts ih =>
    intro acc
    simp only [List.foldl_cons]
    refine le_trans ?_ (ih (bestStep re text acc t))
    unfold bestStep
    split_ifs with hgen hcond
    · exact le_refl acc.2
    · exact le_of_lt hcond.2
    · exact le_refl acc.2

/-- The candidate fold ends at or above the confidence of every
non-generic matching candidate it visits. -/
theorem foldl_bestStep_max (re : PyRe) (text : String) (l : List Template) :
    ∀ acc, ∀ t ∈ l, t.template_id ≠ "generic_nl" →
      (matchSupplier re t text).1 = true →
      (matchSupplier re t text).2 ≤ (l.foldl (bestStep re text) acc).2 := by
  induction l with
  | nil => intro acc t ht; exact absurd ht (List.not_mem_nil t)
  | cons u ts ih =>
    intro acc t ht hng hm
    simp only [List.foldl_cons]
    rcases List.mem_cons.mp ht with rfl | hts
    · refine le_trans ?_ (foldl_bestStep_mono re text ts _)
      unfold bestStep
      split_ifs with hgen hcond
      · exact absurd hgen hng
      · exact le_refl _
      · exact le_of_not_lt fun hlt => hcond ⟨hm, hlt⟩
    · exact ih (bestStep re text acc u) t hts hng hm

/-- A nonempty running best survives a candidate step. -/
theorem bestStep_ne_none (re : PyRe) (text : String) (acc : Option Template × ℚ)
    (t : Template) (h : acc.1 ≠ none) : (bestStep re text acc t).1 ≠ none := by
  unfold bestStep
  split_ifs
  · exact h
  · simp
  · exact h

/-- A nonempty running best survives the whole candidate fold. -/
theorem foldl_bestStep_ne_none (re : PyRe) (text : String) (l : List Template) :
    ∀ acc : Option Template × ℚ, acc.1 ≠ none →
      (l.foldl (bestStep re text) acc).1 ≠ none := by
  induction l with
  | nil => intro acc h; exact h
  | cons t ts ih =>
    intro acc h
    simp only [List.foldl_cons]
    exact ih _ (bestStep_ne_none re text acc t h)

/-- An empty running best has confidence 0 after a candidate step
whenever it did before. -/
theorem bestStep_inv (re : PyRe) (text : String) (acc : Option Template × ℚ)
    (t : Template) (hinv : acc.1 = none → acc.2 = 0) :
    (bestStep re text acc t).1 = none → (bestStep re text acc t).2 = 0 := by
  unfold bestStep
  split_ifs with hgen hcond
  · exact hinv
  · intro h; simp at h
  · exact hinv

/-- A non-generic matching candidate forces the step to leave a
nonempty running best behind. -/
theorem bestStep_matched_ne_none (re : PyRe) (text : String)
    (acc : Option Template × ℚ) (t : Template)
    (hinv : acc.1 = none → acc.2 = 0)
    (hng : t.template_id ≠ "generic_nl")
    (hm : (matchSupplier re t text).1 = true) :
    (bestStep re text acc t).1 ≠ none := by
  unfold bestStep
  split_ifs with hgen hcond
  · exact absurd hgen hng
  · simp
  · intro hnone
    have h1 := matchSupplier_matched re t text hm
    have h2 : (matchSupplier re t text).2 ≤ acc.2 :=
      le_of_not_lt fun hlt => hcond ⟨hm, hlt⟩
    rw [hinv hnone] at h2
    exact absurd (lt_of_lt_of_le h1 h2) (by norm_num)

/-- The candidate fold returns a candidate whenever some non-generic
candidate matches. -/
theorem foldl_bestStep_some (re : PyRe) (text : String) (l : List Template) :
    ∀ acc : Option Template × ℚ, (acc.1 = none → acc.2 = 0) →
      (∃ t ∈ l, t.template_id ≠ "generic_nl" ∧ (matchSupplier re t text).1 = true) →
      (l.foldl (bestStep re text) acc).1 ≠ none := by
  induction l with
  | nil =>
    intro acc _ h
    simp at h
  | cons u ts ih =>
    intro acc hinv h
    simp only [List.foldl_cons]
    rcases h with ⟨t, ht, hng, hm⟩
    rcases List.mem_cons.mp ht with rfl | hts
    · exact foldl_bestStep_ne_none re text ts _
        (bestStep_matched_ne_none re text acc t hinv hng hm)
    · exact ih _ (bestStep_inv re text acc u hinv) ⟨t, hts, hng, hm⟩

/-- `bestCandidate` soundness, specialised from the fold invariant. -/
theorem bestCandidate_accOK (re : PyRe) (text : String) (catalog : List Template) :
    bestCandidate re text catalog = (none, 0) ∨
    ∃ u, (bestCandidate re text catalog).1 = some u ∧ u ∈ catalog ∧
      u.template_id ≠ "generic_nl" ∧ (matchSupplier re u text).1 = true ∧
      (bestCandidate re text catalog).2 = (matchSupplier re u text).2 := by
  unfold bestCandidate
  exact foldl_bestStep_accOK re text catalog catalog (fun t ht => ht) (none, 0)
    (Or.inl rfl)

/-- `bestCandidate` dominates every non-generic matching candidate. -/
theorem bestCandidate_max (re : PyRe) (text : String) (catalog : List Template)
    (w : Template) (hw : w ∈ catalog) (hng : w.template_id ≠ "generic_nl")
    (hm : (matchSupplier re w text).1 = true) :
    (matchSupplier re w text).2 ≤ (bestCandidate re text catalog).2 := by
  unfold bestCandidate
  exact foldl_bestStep_max re text catalog (none, 0) w hw hng hm

/-- `bestCandidate` is nonempty whenever some non-generic candidate
matches. -/
theorem bestCandidate_some (re : PyRe) (text : String) (catalog : List Template)
    (h : ∃ t ∈ catalog, t.template_id ≠ "generic_nl" ∧
      (matchSupplier re t text).1 = true) :
    (bestCandidate re text catalog).1 ≠ none := by
  unfold bestCandidate
  exact foldl_bestStep_some re text catalog (none, 0) (fun _ => rfl) h

/-- With no supplier hint the selector reduces to the candidate fold
over the whole catalog plus the final acceptance test. -/
theorem findBestTemplate_none_hint (re : PyRe) (catalog : List Template)
    (text : String) :
    findBestTemplate re catalog text none =
      match (bestCandidate re text catalog).1 with
      | some t =>
        if (bestCandidate re text catalog).2 ≥ 1/2 then some t
        else catalog.find? (·.template_id = "generic_nl")
      | none => catalog.find? (·.template_id = "generic_nl") := rfl

/-- Template declaring the supplier name of the C7 scenario. -/
def ziggoTemplate : Template :=
  { template_id := "ziggo_nl", name := "Ziggo", supplier_name := some "Ziggo B.V." }

/-- The catalog's generic fallback template. -/
def genericTemplate : Template :=
  { template_id := "generic_nl", name := "Generic NL" }

/-- Text containing the exact declared supplier name. -/
def ziggoText : String := "Factuur van Ziggo B.V. te Utrecht"

/-- Text mentioning no supplier. -/
def unrelatedText : String := "Geen enkele leverancier komt hier voor"

/-- The declared-supplier-name hit scores exactly 0.8 and matches. -/
theorem matchSupplier_ziggo (re : PyRe) :
    matchSupplier re ziggoTemplate ziggoText = (true, 8/10) := by
  have hc : containsSub (lowerL ziggoText.data) (lowerL "Ziggo B.V.".data) = true := by
    decide
  have hne : ("Ziggo B.V." : String) = "" ↔ False := iff_false_intro (by decide)
  norm_num [matchSupplier, ziggoTemplate, aliasScore, supplierPatternScore,
    List.foldl_nil, hc, hne, max_def, min_def]

/-- On unrelated text the Ziggo template does not match. -/
theorem matchSupplier_ziggo_unrel (re : PyRe) :
    matchSupplier re ziggoTemplate unrelatedText = (false, 0) := by
  have hc : containsSub (lowerL unrelatedText.data) (lowerL "Ziggo B.V.".data) =
      false := by
    decide
  have hne : ("Ziggo B.V." : String) = "" ↔ False := iff_false_intro (by decide)
  norm_num [matchSupplier, ziggoTemplate, aliasScore, supplierPatternScore,
    List.foldl_nil, hc, hne, max_def, min_def]

/-- The two-template catalog selects the Ziggo template on the Ziggo
text. -/
theorem findBest_ziggo (re : PyRe) :
    findBestTemplate re [ziggoTemplate, genericTemplate] ziggoText none =
      some ziggoTemplate := by
  have hz := matchSupplier_ziggo re
  have hzid : ziggoTemplate.template_id = "ziggo_nl" := rfl
  have hgid : genericTemplate.template_id = "generic_nl" := rfl
  have hne : ("ziggo_nl" : String) = "generic_nl" ↔ False := iff_false_intro (by decide)
  norm_num [findBestTemplate, bestCandidate, bestStep, hz, hzid, hgid, hne,
    List.foldl_cons, List.foldl_nil, List.find?]

/-- The two-template catalog falls back to the generic template on
unrelated text. -/
theorem findBest_unrel (re : PyRe) :
    findBestTemplate re [ziggoTemplate, genericTemplate] unrelatedText none =
      some genericTemplate := by
  have hz := matchSupplier_ziggo_unrel re
  have hzid : ziggoTemplate.template_id = "ziggo_nl" := rfl
  have hgid : genericTemplate.template_id = "generic_nl" := rfl
  have hne : ("ziggo_nl" : String) = "generic_nl" ↔ False := iff_false_intro (by decide)
  norm_num [findBestTemplate, bestCandidate, bestStep, hz, hzid, hgid, hne,
    List.foldl_cons, List.foldl_nil, List.find?]

/-- Claim C7, amended.  A non-generic template is selected exactly when
its supplier match flag is set, which requires its score to lie strictly
above 0.5 (so the selector's ≥ 0.5 acceptance re-check never rejects a
matched candidate); the selected template dominates the score of every
non-generic matching candidate; when no non-generic candidate matches,
the catalog's `generic_nl` template (if any) is returned.  On the
concrete scenario, text containing the exact declared supplier name
"Ziggo B.V." selects that template with confidence exactly 0.8, and
unrelated text yields the generic default. -/
theorem C7_template_selection (re : PyRe) (catalog : List Template) (text : String) :
    (∀ u, findBestTemplate re catalog text none = some u →
        u.template_id ≠ "generic_nl" →
      u ∈ catalog ∧ (matchSupplier re u text).1 = true ∧
        1/2 < (matchSupplier re u text).2 ∧
        ∀ w ∈ catalog, w.template_id ≠ "generic_nl" →
          (matchSupplier re w text).1 = true →
          (matchSupplier re w text).2 ≤ (matchSupplier re u text).2) ∧
    ((∃ t ∈ catalog, t.template_id ≠ "generic_nl" ∧
        (matchSupplier re t text).1 = true) →
      ∃ u, findBestTemplate re catalog text none = some u ∧
        u.template_id ≠ "generic_nl") ∧
    ((∀ t ∈ catalog, t.template_id ≠ "generic_nl" →
        (matchSupplier re t text).1 = false) →
      findBestTemplate re catalog text none =
        catalog.find? (·.template_id = "generic_nl")) ∧
    matchSupplier re ziggoTemplate ziggoText = (true, 8/10) ∧
    findBestTemplate re [ziggoTemplate, genericTemplate] ziggoText none =
      some ziggoTemplate ∧
    findBestTemplate re [ziggoTemplate, genericTemplate] unrelatedText none =
      some genericTemplate := by
  refine ⟨?_, ?_, ?_, matchSupplier_ziggo re, findBest_ziggo re, findBest_unrel re⟩
  · intro u hfind hng
    rw [findBestTemplate_none_hint] at hfind
    split at hfind
    · rename_i t' hb1
      split_ifs at hfind with hsc
      · obtain rfl : t' = u := Option.some.inj hfind
        rcases bestCandidate_accOK re text catalog with h0 | ⟨u', h1, hmem, hng', hm', h2⟩
        · rw [h0] at hb1
          simp at hb1
        · rw [h1] at hb1
          obtain rfl := Option.some.inj hb1
          refine ⟨hmem, hm', matchSupplier_matched re _ text hm', ?_⟩
          intro w hw hngw hmw
          have hle := bestCandidate_max re text catalog w hw hngw hmw
          rw [h2] at hle
          exact hle
      · have hgen := List.find?_some hfind
        simp only [decide_eq_true_eq] at hgen
        exact absurd hgen hng
    · rename_i hb1
      have hgen := List.find?_some hfind
      simp only [decide_eq_true_eq] at hgen
      exact absurd hgen hng
  · intro hex
    have hne := bestCandidate_some re text catalog hex
    rcases bestCandidate_accOK re text catalog with h0 | ⟨u', h1, hmem, hng', hm', h2⟩
    · rw [h0] at hne
      exact absurd rfl hne
    · refine ⟨u', ?_, hng'⟩
      rw [findBestTemplate_none_hint]
      split
      · rename_i t' hb1
        rw [h1] at hb1
        obtain rfl : u' = t' := Option.some.inj hb1
        have hge : (bestCandidate re text catalog).2 ≥ 1/2 := by
          rw [h2]
          exact le_of_lt (matchSupplier_matched re u' text hm')
        rw [if_pos hge]
      · rename_i hb1
        rw [h1] at hb1
        simp at hb1
  · intro hall
    rcases bestCandidate_accOK re text catalog with h0 | ⟨u', h1, hmem, hng', hm', h2⟩
    · rw [findBestTemplate_none_hint]
      split
      · rename_i t' hb1
        rw [h0] at hb1
        simp at hb1
      · rfl
    · rw [hall u' hmem hng'] at hm'
      simp at hm'

/-- Supplier keyword pattern of the C7 counterexample (the default
confidence threshold 0.5). -/
def c7Pattern : FieldPattern :=
  { pattern := "factuurnummer", method := .keyword, field_type := .text }

/-- Non-generic template whose supplier pattern matches with confidence
exactly 0.5. -/
def c7Template : Template :=
  { template_id := "kw_nl", name := "KW", supplier_patterns := [c7Pattern] }

/-- Text on which the keyword supplier pattern fires. -/
def c7Text : String := "factuurnummer: 12345"

/-- The keyword supplier pattern yields confidence exactly 0.5 and the
match flag is NOT set (the flag needs strictly more than 0.5). -/
theorem matchSupplier_c7 :
    matchSupplier trivRe c7Template c7Text = (false, 1/2) := by
  have hkw : applyPattern trivRe c7Pattern c7Text = (some "12345", 1/2) := by rfl
  have hne : ("12345" : String) = "" ↔ False := iff_false_intro (by decide)
  norm_num [matchSupplier, c7Template, supplierPatternScore, aliasScore,
    List.foldl_cons, List.foldl_nil, hkw, hne, max_def, min_def]

/-- Claim C7, counterexample.  A non-generic candidate whose supplier
match confidence is exactly 0.5 — at least the claimed acceptance
threshold — is nevertheless rejected (the match flag needs a score
strictly above 0.5), and the generic default is returned instead. -/
theorem C7_counterexample :
    matchSupplier trivRe c7Template c7Text = (false, 1/2) ∧
    ((1:ℚ)/2 ≥ 1/2) ∧
    c7Template.template_id ≠ "generic_nl" ∧
    findBestTemplate trivRe [c7Template, genericTemplate] c7Text none =
      some genericTemplate := by
  refine ⟨matchSupplier_c7, le_refl _, by decide, ?_⟩
  have hz := matchSupplier_c7
  have hkid : c7Template.template_id = "kw_nl" := rfl
  have hgid : genericTemplate.template_id = "generic_nl" := rfl
  have hne : ("kw_nl" : String) = "generic_nl" ↔ False := iff_false_intro (by decide)
  norm_num [findBestTemplate, bestCandidate, bestStep, hz, hkid, hgid, hne,
    List.foldl_cons, List.foldl_nil, List.find?]

end ClaimTheorems

end PDF2UBL
